import Mathlib

/-!
Verification of the Agentus compiler + bytecode + VM triad
(crates `agentus-ir`, `agentus-runtime`, `agentus-codegen`).

Shallow embedding conventions:
* Rust `f64` payloads are embedded as `F64`, an integral fragment of the
  IEEE doubles plus a `nan` element.  IEEE `==` on `f64` (used by the
  derived `PartialEq` of `Constant` and the manual `PartialEq` of `Value`)
  is not reflexive at NaN; `F64.feq` reproduces that.  No verified claim
  evaluates non-integral float arithmetic.
* `Rc<RefCell<...>>` shared-mutable containers (List, Map, Iterator) are
  embedded with an explicit heap of cells; a `Value` holds the cell id.
  Two values alias exactly when they hold the same cell id.
* Rust `HashMap` is embedded as an association list with replace-on-insert
  semantics (`ainsert` / `alookup`).  Iteration order of a Rust `HashMap`
  is unspecified; no claim below depends on it.
* Rust panics (out-of-range `Vec` indexing, `unwrap`) are embedded as
  `Except.error` values whose message starts with `panic:`.
* The call stack is a Lean list with the innermost (top) frame at the
  head; Rust pushes/pops at the end of its `Vec`.
-/

set_option autoImplicit false

namespace Agentus

/-- Stand-in for Rust `f64`: the integral doubles plus NaN.  The claims
checked here never evaluate non-integral float results; `fin m` models the
double with exact integer value `m`. -/
inductive F64 where
  | nan
  | fin (m : Int)
deriving DecidableEq

/-- IEEE-754 `==` on `f64` as Rust's `PartialEq` uses it: NaN compares
unequal to everything, including itself. -/
def F64.feq : F64 → F64 → Bool
  | .fin a, .fin b => a == b
  | _, _ => false

/-- IEEE `<` on the embedded fragment (false whenever NaN is involved). -/
def F64.flt : F64 → F64 → Bool
  | .fin a, .fin b => a < b
  | _, _ => false

/-- IEEE `<=` on the embedded fragment (false whenever NaN is involved). -/
def F64.fle : F64 → F64 → Bool
  | .fin a, .fin b => a ≤ b
  | _, _ => false

/-- `f64` addition restricted to the integral fragment (exact below 2^53;
no claim evaluates arithmetic results). -/
def F64.fadd : F64 → F64 → F64
  | .fin a, .fin b => .fin (a + b)
  | _, _ => .nan

/-- `f64` subtraction restricted to the integral fragment. -/
def F64.fsub : F64 → F64 → F64
  | .fin a, .fin b => .fin (a - b)
  | _, _ => .nan

/-- `f64` multiplication restricted to the integral fragment. -/
def F64.fmul : F64 → F64 → F64
  | .fin a, .fin b => .fin (a * b)
  | _, _ => .nan

/-- Stand-in for `f64` division: exact only when the quotient is integral;
division by zero (`inf`/NaN in IEEE) leaves the embedded fragment and is
mapped to `nan`.  No claim evaluates `Div`. -/
def F64.fdiv : F64 → F64 → F64
  | .fin a, .fin b => if b = 0 then .nan else .fin (Int.tdiv a b)
  | _, _ => .nan

/-- Stand-in for `f64` remainder (Rust `%` on floats); exact on the
integral fragment with nonzero divisor.  No claim evaluates `Mod`. -/
def F64.fmod : F64 → F64 → F64
  | .fin a, .fin b => if b = 0 then .nan else .fin (Int.tmod a b)
  | _, _ => .nan

/-- `f64` negation. -/
def F64.fneg : F64 → F64
  | .fin a => .fin (-a)
  | .nan => .nan

/-- Truthiness of a `Num`: Rust tests `*n != 0.0`.  NaN is truthy
(`NaN != 0.0` holds in IEEE). -/
def F64.isTruthy : F64 → Bool
  | .fin a => a != 0
  | .nan => true

/-- Rust `as usize` cast from `f64`: saturating, NaN goes to 0.  On the
integral fragment this truncates negatives to 0 and clamps above. -/
def F64.toUsize : F64 → Nat
  | .nan => 0
  | .fin m => if m < 0 then 0 else min m.toNat (2 ^ 64 - 1)

/-- Display form of a `Num` (`impl fmt::Display for Value`): a double with
an exact `i64` value prints as that integer; NaN falls through to the
float formatter. -/
def displayF64 : F64 → String
  | .nan => "NaN"
  | .fin m => toString m

-- ===================================================================
-- Association lists: the embedding of Rust `HashMap`
-- ===================================================================

/-- `HashMap::get`: first binding of the key, if any. -/
def alookup {κ α : Type} [DecidableEq κ] (k : κ) : List (κ × α) → Option α
  | [] => none
  | (k', v) :: t => if k' = k then some v else alookup k t

/-- `HashMap::insert`: replace the binding of the key, or append a new
binding. -/
def ainsert {κ α : Type} [DecidableEq κ] (k : κ) (v : α) : List (κ × α) → List (κ × α)
  | [] => [(k, v)]
  | (k', v') :: t => if k' = k then (k, v) :: t else (k', v') :: ainsert k v t

/-- `HashMap::remove`: drop the binding of the key, returning it. -/
def aremove {κ α : Type} [DecidableEq κ] (k : κ) : List (κ × α) → Option α × List (κ × α)
  | [] => (none, [])
  | (k', v) :: t =>
    if k' = k then (some v, t)
    else
      let r := aremove k t
      (r.1, (k', v) :: r.2)

-- ===================================================================
-- Constants and the module pool (`agentus-ir/src/module.rs`)
-- ===================================================================

/-- `Constant`: a tagged value in the module pool. -/
inductive Constant where
  | noneC
  | boolC (b : Bool)
  | numC (n : F64)
  | strC (s : String)
deriving DecidableEq

/-- The derived `PartialEq` of `Constant`: fieldwise, with IEEE `==` on
the `Num` payload. -/
def constantEq : Constant → Constant → Bool
  | .noneC, .noneC => true
  | .boolC a, .boolC b => a == b
  | .numC a, .numC b => F64.feq a b
  | .strC a, .strC b => a == b
  | _, _ => false

/-- The scan loop of `Module::add_constant`: index of the first pool
entry equal (under `PartialEq`) to the candidate. -/
def findEqIdx (c : Constant) : List Constant → Option Nat
  | [] => none
  | e :: t => if constantEq e c then some 0 else (findEqIdx c t).map (· + 1)

/-- `Module::add_constant`: scan the pool for an existing equal constant
and return its index, else push and return the new index.  (The source
asserts the pool stays within `u16`; the claims never exceed it.) -/
def addConstant (cs : List Constant) (c : Constant) : Nat × List Constant :=
  match findEqIdx c cs with
  | some i => (i, cs)
  | none => (cs.length, cs ++ [c])

-- ===================================================================
-- Runtime values and the container heap (`agentus-runtime/src/value.rs`)
-- ===================================================================

/-- Runtime `Value`.  Container variants carry the id of their shared
mutable cell (Rust: `Rc<RefCell<...>>`); strings are immutable so the
`Rc<String>` is embedded as the string itself. -/
inductive Value where
  | noneV
  | bool (b : Bool)
  | num (n : F64)
  | str (s : String)
  | list (cell : Nat)
  | map (cell : Nat)
  | agentHandle (id : Nat)
  | error (s : String)
  | iterator (cell : Nat)
deriving DecidableEq

/-- The manual `impl PartialEq for Value`: like-typed scalars compare by
payload (IEEE `==` for `Num`), every other pair — mixed types and every
container, even two aliases of one cell — is `false`. -/
def valueEq : Value → Value → Bool
  | .noneV, .noneV => true
  | .bool a, .bool b => a == b
  | .num a, .num b => F64.feq a b
  | .str a, .str b => a == b
  | _, _ => false

/-- The spec's notion of a like-typed scalar pair (`None/None`,
`Bool/Bool`, `Num/Num`, `Str/Str`). -/
def likeScalars : Value → Value → Bool
  | .noneV, .noneV => true
  | .bool _, .bool _ => true
  | .num _, .num _ => true
  | .str _, .str _ => true
  | _, _ => false

/-- Backing store of one shared mutable container. -/
inductive Cell where
  | listC (items : List Value)
  | mapC (entries : List (String × Value))
  | iterC (items : List Value) (cursor : Nat)
deriving DecidableEq

/-- The container heap: all live `Rc<RefCell<...>>` cells, keyed by id,
plus the next fresh id. -/
structure Heap where
  cells : List (Nat × Cell)
  nextCell : Nat
deriving DecidableEq

/-- Allocate a fresh cell (embedding of `Rc::new(RefCell::new(..))`). -/
def Heap.alloc (h : Heap) (c : Cell) : Nat × Heap :=
  (h.nextCell, ⟨h.cells ++ [(h.nextCell, c)], h.nextCell + 1⟩)

/-- Overwrite the contents of an existing cell (a `borrow_mut` write). -/
def Heap.setCell (h : Heap) (i : Nat) (c : Cell) : Heap :=
  ⟨ainsert i c h.cells, h.nextCell⟩

/-- Well-formed heap: every live cell id is below the fresh counter. -/
def Heap.WF (h : Heap) : Prop :=
  ∀ p ∈ h.cells, p.1 < h.nextCell

/-- `Value::is_truthy`.  Containers are truthy iff non-empty (a dangling
cell id cannot occur in states reachable in the source; it is mapped to
false). -/
def isTruthy (h : Heap) : Value → Bool
  | .noneV => false
  | .bool b => b
  | .num n => n.isTruthy
  | .str s => !(s == "")
  | .list cid =>
    match alookup cid h.cells with
    | some (.listC items) => !items.isEmpty
    | _ => false
  | .map cid =>
    match alookup cid h.cells with
    | some (.mapC entries) => !entries.isEmpty
    | _ => false
  | .agentHandle _ => true
  | .error _ => false
  | .iterator _ => true

/-- `impl fmt::Display for Value`, with explicit recursion fuel for the
walk through container cells.  The source recurses through `RefCell`
borrows and diverges on cyclic containers (a documented hazard); on an
acyclic heap every reference chain is shorter than the number of cells,
so any `fuel > h.cells.length` computes the exact display string.
Scalar cases never consult the fuel. -/
def displayValueFuel (h : Heap) (fuel : Nat) (v : Value) : String :=
  match v with
  | .noneV => "none"
  | .bool b => cond b "true" "false"
  | .num n => displayF64 n
  | .str s => s
  | .agentHandle id => "<agent:" ++ toString id ++ ">"
  | .error e => "<error: " ++ e ++ ">"
  | .iterator _ => "<iterator>"
  | .list cid =>
    match fuel with
    | 0 => ""
    | f + 1 =>
      match alookup cid h.cells with
      | some (.listC items) =>
        "[" ++ String.intercalate ", " (items.map (fun x => displayValueFuel h f x)) ++ "]"
      | _ => ""
  | .map cid =>
    match fuel with
    | 0 => ""
    | f + 1 =>
      match alookup cid h.cells with
      | some (.mapC entries) =>
        "\x7b" ++
          String.intercalate ", "
            (entries.map (fun kv => "\"" ++ kv.1 ++ "\": " ++ displayValueFuel h f kv.2)) ++
          "\x7d"
      | _ => ""
termination_by fuel

/-- `Value::to_string()` as the VM calls it: enough fuel for any acyclic
heap. -/
def displayValue (h : Heap) (v : Value) : String :=
  displayValueFuel h (h.cells.length + 1) v

/-- `OpCode::Concat` result: stringify both operands via the display form,
then join (`vm.rs`, Concat arm). -/
def concatValues (h : Heap) (a b : Value) : Value :=
  .str (displayValue h a ++ displayValue h b)

-- ===================================================================
-- Opcodes and instruction words (`agentus-ir/src/{opcode,instruction}.rs`)
-- ===================================================================

/-- The VM instruction set (`enum OpCode`). -/
inductive OpCode where
  | Nop | Halt
  | LoadConst | LoadNone | LoadTrue | LoadFalse | Move
  | MLoad | MStore | GLoad | GStore
  | Add | Sub | Mul | Div | Mod | Neg
  | Eq | Neq | Lt | Lte | Gt | Gte
  | And | Or | Not
  | Concat | StrLen | Format | Substr
  | NewList | NewMap | IndexGet | IndexSet | Len | ListPush
  | Jmp | JmpTrue | JmpFalse
  | Call | Ret | RetNone
  | Exec | ExecStructured
  | Spawn | Send | Recv | RecvTimeout | Wait | Kill
  | TCall
  | PipelineRun
  | Emit | Log
  | TryBegin | TryEnd | Throw | GetError
  | Yield
  | IterInit | IterNext
  | TypeOf | Cast
deriving DecidableEq

/-- `OpCode::from_byte`. -/
def OpCode.fromByte (byte : Nat) : Option OpCode :=
  match byte with
  | 0x00 => some .Nop
  | 0x01 => some .Halt
  | 0x10 => some .LoadConst
  | 0x11 => some .LoadNone
  | 0x12 => some .LoadTrue
  | 0x13 => some .LoadFalse
  | 0x14 => some .Move
  | 0x20 => some .MLoad
  | 0x21 => some .MStore
  | 0x22 => some .GLoad
  | 0x23 => some .GStore
  | 0x30 => some .Add
  | 0x31 => some .Sub
  | 0x32 => some .Mul
  | 0x33 => some .Div
  | 0x34 => some .Mod
  | 0x35 => some .Neg
  | 0x40 => some .Eq
  | 0x41 => some .Neq
  | 0x42 => some .Lt
  | 0x43 => some .Lte
  | 0x44 => some .Gt
  | 0x45 => some .Gte
  | 0x48 => some .And
  | 0x49 => some .Or
  | 0x4A => some .Not
  | 0x50 => some .Concat
  | 0x51 => some .StrLen
  | 0x52 => some .Format
  | 0x53 => some .Substr
  | 0x58 => some .NewList
  | 0x59 => some .NewMap
  | 0x5A => some .IndexGet
  | 0x5B => some .IndexSet
  | 0x5C => some .Len
  | 0x5D => some .ListPush
  | 0x60 => some .Jmp
  | 0x61 => some .JmpTrue
  | 0x62 => some .JmpFalse
  | 0x68 => some .Call
  | 0x69 => some .Ret
  | 0x6A => some .RetNone
  | 0x70 => some .Exec
  | 0x71 => some .ExecStructured
  | 0x78 => some .Spawn
  | 0x79 => some .Send
  | 0x7A => some .Recv
  | 0x7B => some .RecvTimeout
  | 0x7C => some .Wait
  | 0x7D => some .Kill
  | 0x80 => some .TCall
  | 0x88 => some .PipelineRun
  | 0x90 => some .Emit
  | 0x91 => some .Log
  | 0x98 => some .TryBegin
  | 0x99 => some .TryEnd
  | 0x9A => some .Throw
  | 0x9B => some .GetError
  | 0xA0 => some .Yield
  | 0xA8 => some .IterInit
  | 0xA9 => some .IterNext
  | 0xB0 => some .TypeOf
  | 0xB1 => some .Cast
  | _ => none

/-- `OpCode::to_byte` (`self as u8`). -/
def OpCode.toByte : OpCode → Nat
  | .Nop => 0x00 | .Halt => 0x01
  | .LoadConst => 0x10 | .LoadNone => 0x11 | .LoadTrue => 0x12
  | .LoadFalse => 0x13 | .Move => 0x14
  | .MLoad => 0x20 | .MStore => 0x21 | .GLoad => 0x22 | .GStore => 0x23
  | .Add => 0x30 | .Sub => 0x31 | .Mul => 0x32 | .Div => 0x33
  | .Mod => 0x34 | .Neg => 0x35
  | .Eq => 0x40 | .Neq => 0x41 | .Lt => 0x42 | .Lte => 0x43
  | .Gt => 0x44 | .Gte => 0x45
  | .And => 0x48 | .Or => 0x49 | .Not => 0x4A
  | .Concat => 0x50 | .StrLen => 0x51 | .Format => 0x52 | .Substr => 0x53
  | .NewList => 0x58 | .NewMap => 0x59 | .IndexGet => 0x5A
  | .IndexSet => 0x5B | .Len => 0x5C | .ListPush => 0x5D
  | .Jmp => 0x60 | .JmpTrue => 0x61 | .JmpFalse => 0x62
  | .Call => 0x68 | .Ret => 0x69 | .RetNone => 0x6A
  | .Exec => 0x70 | .ExecStructured => 0x71
  | .Spawn => 0x78 | .Send => 0x79 | .Recv => 0x7A | .RecvTimeout => 0x7B
  | .Wait => 0x7C | .Kill => 0x7D
  | .TCall => 0x80
  | .PipelineRun => 0x88
  | .Emit => 0x90 | .Log => 0x91
  | .TryBegin => 0x98 | .TryEnd => 0x99 | .Throw => 0x9A | .GetError => 0x9B
  | .Yield => 0xA0
  | .IterInit => 0xA8 | .IterNext => 0xA9
  | .TypeOf => 0xB0 | .Cast => 0xB1

/-- Instruction words are 32-bit values; decoders mirror the bit-field
extractors of `Instruction`. -/
def instrOpcodeByte (w : Nat) : Nat := w / 2 ^ 24 % 256

/-- Register A: bits 23..16. -/
def instrA (w : Nat) : Nat := w / 2 ^ 16 % 256

/-- Register B: bits 15..8. -/
def instrB (w : Nat) : Nat := w / 2 ^ 8 % 256

/-- Register C: bits 7..0. -/
def instrC (w : Nat) : Nat := w % 256

/-- Unsigned 16-bit Bx: bits 15..0. -/
def instrBx (w : Nat) : Nat := w % 2 ^ 16

/-- Signed 16-bit sBx (`self.0 as u16 as i16`). -/
def instrSbx16 (w : Nat) : Int :=
  let v : Nat := w % 2 ^ 16
  if v < 2 ^ 15 then (v : Int) else (v : Int) - 2 ^ 16

/-- Signed 24-bit sBx, sign-extended on decode. -/
def instrSbx24 (w : Nat) : Int :=
  let v : Nat := w % 2 ^ 24
  if v < 2 ^ 23 then (v : Int) else (v : Int) - 2 ^ 24

/-- `Instruction::abc` encoder. -/
def mkAbc (op : OpCode) (a b c : Nat) : Nat :=
  op.toByte * 2 ^ 24 + a % 256 * 2 ^ 16 + b % 256 * 2 ^ 8 + c % 256

/-- `Instruction::abx` encoder. -/
def mkAbx (op : OpCode) (a bx : Nat) : Nat :=
  op.toByte * 2 ^ 24 + a % 256 * 2 ^ 16 + bx % 2 ^ 16

/-- `Instruction::asbx` encoder (offset stored as `sbx as u16`). -/
def mkAsbx (op : OpCode) (a : Nat) (sbx : Int) : Nat :=
  op.toByte * 2 ^ 24 + a % 256 * 2 ^ 16 + ((sbx % (2 ^ 16 : Int) + 2 ^ 16) % 2 ^ 16).toNat

/-- `Instruction::sbx` encoder (24-bit masked offset). -/
def mkSbx24 (op : OpCode) (off : Int) : Nat :=
  op.toByte * 2 ^ 24 + ((off % (2 ^ 24 : Int) + 2 ^ 24) % 2 ^ 24).toNat

/-- `Instruction::op_a` encoder. -/
def mkOpA (op : OpCode) (a : Nat) : Nat := op.toByte * 2 ^ 24 + a % 256 * 2 ^ 16

/-- `Instruction::op_only` encoder. -/
def mkOpOnly (op : OpCode) : Nat := op.toByte * 2 ^ 24

/-- `pc as i32`: reinterpret the low 32 bits of a usize as signed. -/
def asI32 (n : Nat) : Int :=
  let v : Nat := n % 2 ^ 32
  if v < 2 ^ 31 then (v : Int) else (v : Int) - 2 ^ 32

/-- `i as usize` on a 64-bit target (two's-complement reinterpretation). -/
def asUsize (i : Int) : Nat := (i % (2 ^ 64 : Int)).toNat

/-- `frame.pc = (frame.pc as i32 + offset) as usize`. -/
def pcJump (pc : Nat) (off : Int) : Nat := asUsize (asI32 pc + off)

-- ===================================================================
-- Module layout (`agentus-ir/src/module.rs`)
-- ===================================================================

/-- `AgentMemoryField`. -/
structure AgentMemoryField where
  name_idx : Nat
  default_idx : Option Nat
deriving DecidableEq

/-- `AgentDescriptor`. -/
structure AgentDescriptor where
  name_idx : Nat
  model_idx : Option Nat
  system_prompt_idx : Option Nat
  memory_fields : List AgentMemoryField
  methods : List (Nat × Nat)
deriving DecidableEq

/-- `Function` (compiled). -/
structure Func where
  name_idx : Nat
  num_params : Nat
  num_registers : Nat
  instructions : List Nat
deriving DecidableEq

/-- `Module`.  (The tool-descriptor table and the host boundary are
outside the embedded fragment; no verified claim touches them.) -/
structure Module where
  constants : List Constant
  functions : List Func
  agents : List AgentDescriptor
  entry_function : Nat
deriving DecidableEq

/-- `Constant` to `Value` conversion used by `VM::load_constant`. -/
def constantToValue : Constant → Value
  | .noneC => .noneV
  | .boolC b => .bool b
  | .numC n => .num n
  | .strC s => .str s

/-- `VM::load_constant`. -/
def loadConstant (m : Module) (idx : Nat) : Except String Value :=
  match m.constants.get? idx with
  | some c => .ok (constantToValue c)
  | none => .error ("constant " ++ toString idx ++ " not found")

/-- `VM::load_constant_str`. -/
def loadConstantStr (m : Module) (idx : Nat) : Except String String :=
  match m.constants.get? idx with
  | some (.strC s) => .ok s
  | some _ => .error ("expected string constant at index " ++ toString idx)
  | none => .error ("constant " ++ toString idx ++ " not found")

-- ===================================================================
-- VM state (`agentus-runtime/src/vm.rs`)
-- ===================================================================

/-- `AgentInstance`: a live agent with persistent memory and a FIFO
mailbox (Rust `VecDeque`, embedded as a list with head = front). -/
structure AgentInstance where
  descriptor_idx : Nat
  memory : List (String × Value)
  mailbox : List Value
deriving DecidableEq

/-- `CallFrame`. -/
structure Frame where
  registers : List Value
  function_idx : Nat
  pc : Nat
  return_info : Option (Nat × Nat × Nat)
  agent_id : Option Nat
deriving DecidableEq

/-- The `VM` state: module, call stack (top frame at the head), collected
emit outputs, live agents, fresh-id counter, and the container heap (the
embedding of all live `Rc<RefCell<...>>` cells). -/
structure VMState where
  module : Module
  call_stack : List Frame
  outputs : List Value
  agents : List (Nat × AgentInstance)
  next_agent_id : Nat
  heap : Heap
deriving DecidableEq

/-- `VM::new`: empty stack, no agents, `next_agent_id = 1`. -/
def VMState.new (m : Module) : VMState :=
  ⟨m, [], [], [], 1, ⟨[], 0⟩⟩

/-- `VM::get_register` on a frame; `none` embeds the Rust index panic. -/
def readReg (fr : Frame) (i : Nat) : Except String Value :=
  match fr.registers.get? i with
  | some v => .ok v
  | none => .error "panic: register index out of bounds"

/-- `VM::set_register`: lazily grow the register file, then write. -/
def setRegs (rs : List Value) (i : Nat) (v : Value) : List Value :=
  let grown := if rs.length ≤ i then rs ++ List.replicate (i + 1 - rs.length) Value.noneV else rs
  grown.set i v

/-- `set_register` on the top frame of the state. -/
def stSetReg (s : VMState) (i : Nat) (v : Value) : VMState :=
  match s.call_stack with
  | [] => s
  | fr :: rest => { s with call_stack := { fr with registers := setRegs fr.registers i v } :: rest }

/-- Overwrite the top frame's program counter. -/
def stSetPc (s : VMState) (p : Nat) : VMState :=
  match s.call_stack with
  | [] => s
  | fr :: rest => { s with call_stack := { fr with pc := p } :: rest }

/-- `VM::current_agent_id`: the top frame's owning agent, or the runtime
error "not in an agent context". -/
def currentAgentId (s : VMState) : Except String Nat :=
  match s.call_stack with
  | { agent_id := some id, .. } :: _ => .ok id
  | _ => .error "not in an agent context"

/-- `VM::arith_op`. -/
def arithOp (fr : Frame) (b c : Nat) (op : F64 → F64 → F64) : Except String Value := do
  let lhs ← readReg fr b
  let rhs ← readReg fr c
  match lhs, rhs with
  | .num x, .num y => .ok (.num (op x y))
  | _, _ => .error "arithmetic requires numeric operands"

/-- `VM::cmp_op`. -/
def cmpOp (fr : Frame) (b c : Nat) (op : F64 → F64 → Bool) : Except String Value := do
  let lhs ← readReg fr b
  let rhs ← readReg fr c
  match lhs, rhs with
  | .num x, .num y => .ok (.bool (op x y))
  | _, _ => .error "comparison requires numeric operands"

/-- One memory field of `OpCode::Spawn`: resolve the field name and its
default constant (`Value::None` when absent). -/
def resolveField (m : Module) (f : AgentMemoryField) : Except String (String × Value) := do
  let name ← loadConstantStr m f.name_idx
  match f.default_idx with
  | some idx => do
    let v ← loadConstant m idx
    .ok (name, v)
  | none => .ok (name, Value.noneV)

/-- The Spawn memory-initialization loop: insert each declared field's
default into the fresh memory map. -/
def spawnMemory (m : Module) : List AgentMemoryField → List (String × Value) →
    Except String (List (String × Value))
  | [], mem => .ok mem
  | f :: t, mem => do
    let nv ← resolveField m f
    spawnMemory m t (ainsert nv.1 nv.2 mem)

/-- `VM::push_frame_with_agent`: fresh register file of the callee's
declared size. -/
def pushFrame (s : VMState) (function_idx : Nat) (return_info : Option (Nat × Nat × Nat))
    (agent_id : Option Nat) : Except String VMState :=
  match s.module.functions.get? function_idx with
  | none => .error ("function " ++ toString function_idx ++ " not found")
  | some f =>
    .ok { s with call_stack :=
      ⟨List.replicate f.num_registers Value.noneV, function_idx, 0, return_info, agent_id⟩ ::
        s.call_stack }

/-- Argument copy after a frame push: `set_register i` for each argument
in order. -/
def copyArgsFrom (s : VMState) (i : Nat) : List Value → VMState
  | [] => s
  | v :: t => copyArgsFrom (stSetReg s i v) (i + 1) t

/-- Collect `count` consecutive caller registers starting at `start`. -/
def collectArgs (fr : Frame) (start count : Nat) : Except String (List Value) :=
  match count with
  | 0 => .ok []
  | k + 1 => do
    let v ← readReg fr start
    let rest ← collectArgs fr (start + 1) k
    .ok (v :: rest)

/-- The Send arm of `VM::execute` (operands already decoded, PC already
advanced): read handle and message, append the message to the target
agent's mailbox. -/
def execSend (s : VMState) (a b : Nat) : Except String VMState :=
  match s.call_stack with
  | [] => .error "panic: empty call stack"
  | fr :: _ => do
    let handle ← readReg fr a
    let message ← readReg fr b
    match handle with
    | .agentHandle id =>
      match alookup id s.agents with
      | some inst =>
        .ok { s with agents := ainsert id { inst with mailbox := inst.mailbox ++ [message] } s.agents }
      | none => .error ("agent " ++ toString id ++ " not found")
    | _ => .error ("send target is not an agent handle: " ++ displayValue s.heap handle)

/-- The Recv arm of `VM::execute`: pop the head of the target agent's
mailbox (None when empty) into r(a). -/
def execRecv (s : VMState) (a b : Nat) : Except String VMState :=
  match s.call_stack with
  | [] => .error "panic: empty call stack"
  | fr :: _ => do
    let handle ← readReg fr b
    match handle with
    | .agentHandle id =>
      match alookup id s.agents with
      | some inst =>
        let popped : Value × List Value :=
          match inst.mailbox with
          | [] => (Value.noneV, [])
          | v :: t => (v, t)
        .ok (stSetReg { s with agents := ainsert id { inst with mailbox := popped.2 } s.agents }
              a popped.1)
      | none => .error ("agent " ++ toString id ++ " not found")
    | _ => .error ("recv target is not an agent handle: " ++ displayValue s.heap handle)

/-- Result of one iteration of the `VM::execute` loop: either the loop
continues with the next state, or execution finished (`Halt`, or the call
stack emptied). -/
inductive StepOut where
  | next (s : VMState)
  | halted (s : VMState)
deriving DecidableEq

/-- The NewMap construction loop: stringify each key register via the
display form, insert the following register as its value. -/
def buildMapEntries (h : Heap) : List Value → List (String × Value) → List (String × Value)
  | k :: v :: t, acc => buildMapEntries h t (ainsert (displayValue h k) v acc)
  | _, acc => acc

-- Per-opcode arm functions: each mirrors one arm of the big `match` in
-- `VM::execute`.  `s1` is the state after the PC advance, `fr` the frame
-- as it was when the instruction was fetched (same registers), `func`
-- the current function (for multi-word groups).

/-- LoadConst arm: r(A) = constants(Bx). -/
def armLoadConst (s1 : VMState) (inst : Nat) : Except String StepOut := do
  let v ← loadConstant s1.module (instrBx inst)
  .ok (.next (stSetReg s1 (instrA inst) v))

/-- Move arm: r(A) = r(B). -/
def armMove (s1 : VMState) (fr : Frame) (inst : Nat) : Except String StepOut := do
  let v ← readReg fr (instrB inst)
  .ok (.next (stSetReg s1 (instrA inst) v))

/-- Shared body of the five arithmetic arms. -/
def armArith (s1 : VMState) (fr : Frame) (inst : Nat) (op : F64 → F64 → F64) :
    Except String StepOut := do
  let r ← arithOp fr (instrB inst) (instrC inst) op
  .ok (.next (stSetReg s1 (instrA inst) r))

/-- Neg arm. -/
def armNeg (s1 : VMState) (fr : Frame) (inst : Nat) : Except String StepOut := do
  let v ← readReg fr (instrB inst)
  match v with
  | .num n => .ok (.next (stSetReg s1 (instrA inst) (.num n.fneg)))
  | _ => .error "Neg requires numeric operand"

/-- Eq arm: r(A) = (r(B) == r(C)) under `PartialEq`. -/
def armEq (s1 : VMState) (fr : Frame) (inst : Nat) : Except String StepOut := do
  let lv ← readReg fr (instrB inst)
  let rv ← readReg fr (instrC inst)
  .ok (.next (stSetReg s1 (instrA inst) (.bool (valueEq lv rv))))

/-- Neq arm: r(A) = (r(B) != r(C)), the negation of `PartialEq`. -/
def armNeq (s1 : VMState) (fr : Frame) (inst : Nat) : Except String StepOut := do
  let lv ← readReg fr (instrB inst)
  let rv ← readReg fr (instrC inst)
  .ok (.next (stSetReg s1 (instrA inst) (.bool (!valueEq lv rv))))

/-- Shared body of the four ordered-comparison arms. -/
def armCmp (s1 : VMState) (fr : Frame) (inst : Nat) (op : F64 → F64 → Bool) :
    Except String StepOut := do
  let r ← cmpOp fr (instrB inst) (instrC inst) op
  .ok (.next (stSetReg s1 (instrA inst) r))

/-- And arm (truthiness of both operands; both always evaluated). -/
def armAnd (s1 : VMState) (fr : Frame) (inst : Nat) : Except String StepOut := do
  let lv ← readReg fr (instrB inst)
  let rv ← readReg fr (instrC inst)
  .ok (.next (stSetReg s1 (instrA inst) (.bool (isTruthy s1.heap lv && isTruthy s1.heap rv))))

/-- Or arm. -/
def armOr (s1 : VMState) (fr : Frame) (inst : Nat) : Except String StepOut := do
  let lv ← readReg fr (instrB inst)
  let rv ← readReg fr (instrC inst)
  .ok (.next (stSetReg s1 (instrA inst) (.bool (isTruthy s1.heap lv || isTruthy s1.heap rv))))

/-- Not arm. -/
def armNot (s1 : VMState) (fr : Frame) (inst : Nat) : Except String StepOut := do
  let v ← readReg fr (instrB inst)
  .ok (.next (stSetReg s1 (instrA inst) (.bool (!isTruthy s1.heap v))))

/-- Concat arm: r(A) = str(r(B)) ++ str(r(C)) via the display form. -/
def armConcat (s1 : VMState) (fr : Frame) (inst : Nat) : Except String StepOut := do
  let lhs ← readReg fr (instrB inst)
  let rhs ← readReg fr (instrC inst)
  .ok (.next (stSetReg s1 (instrA inst) (concatValues s1.heap lhs rhs)))

/-- JmpTrue arm (offset applied to the already-advanced PC). -/
def armJmpTrue (s1 : VMState) (fr : Frame) (inst : Nat) : Except String StepOut := do
  let v ← readReg fr (instrA inst)
  if isTruthy s1.heap v then
    .ok (.next (stSetPc s1 (pcJump (fr.pc + 1) (instrSbx16 inst))))
  else
    .ok (.next s1)

/-- JmpFalse arm. -/
def armJmpFalse (s1 : VMState) (fr : Frame) (inst : Nat) : Except String StepOut := do
  let v ← readReg fr (instrA inst)
  if !isTruthy s1.heap v then
    .ok (.next (stSetPc s1 (pcJump (fr.pc + 1) (instrSbx16 inst))))
  else
    .ok (.next s1)

/-- Emit arm: deliver r(A) to the sink and append it to the collected
outputs. -/
def armEmit (s1 : VMState) (fr : Frame) (inst : Nat) : Except String StepOut := do
  let v ← readReg fr (instrA inst)
  .ok (.next { s1 with outputs := s1.outputs ++ [v] })

/-- Log arm: the rendered message goes to the external log sink only. -/
def armLog (s1 : VMState) (fr : Frame) (inst : Nat) : Except String StepOut := do
  let mv ← readReg fr (instrC inst)
  let _message := displayValue s1.heap mv
  .ok (.next s1)

/-- Call arm: regular two-word call, or the three-word 0xFFFE method
dispatch over built-in collection methods and agent methods. -/
def armCall (s1 : VMState) (fr : Frame) (func : Func) (inst : Nat) : Except String StepOut :=
  let result_reg := instrA inst
  let func_idx_raw := instrBx inst
  if func_idx_raw = 0xFFFE then
    match func.instructions.get? (fr.pc + 1), func.instructions.get? (fr.pc + 2) with
    | some extra1, some extra2 => do
      let s2 := stSetPc s1 (fr.pc + 3)
      let first_arg_reg := instrB extra1
      let num_args := instrC extra1
      let method_name ← loadConstantStr s1.module (instrBx extra2)
      let handle ← readReg fr first_arg_reg
      match handle with
      | .list lcid =>
        (match alookup lcid s1.heap.cells with
        | some (.listC items) =>
          match method_name with
          | "push" =>
            if num_args < 2 then
              .error "list.push() requires an argument"
            else do
              let val ← readReg fr (first_arg_reg + 1)
              .ok (.next (stSetReg
                { s2 with heap := s2.heap.setCell lcid (.listC (items ++ [val])) }
                result_reg .noneV))
          | "len" =>
            .ok (.next (stSetReg s2 result_reg (.num (.fin items.length))))
          | _ => .error ("unknown list method: " ++ method_name)
        | _ => .error "panic: dangling list cell")
      | .map mcid =>
        (match alookup mcid s1.heap.cells with
        | some (.mapC entries) =>
          match method_name with
          | "len" =>
            .ok (.next (stSetReg s2 result_reg (.num (.fin entries.length))))
          | "keys" =>
            let pair := s2.heap.alloc (.listC (entries.map (fun e => Value.str e.1)))
            .ok (.next (stSetReg { s2 with heap := pair.2 } result_reg (.list pair.1)))
          | "values" =>
            let pair := s2.heap.alloc (.listC (entries.map (fun e => e.2)))
            .ok (.next (stSetReg { s2 with heap := pair.2 } result_reg (.list pair.1)))
          | "contains" =>
            if num_args < 2 then
              .error "map.contains() requires an argument"
            else do
              let kv ← readReg fr (first_arg_reg + 1)
              let key := displayValue s1.heap kv
              .ok (.next (stSetReg s2 result_reg (.bool (alookup key entries).isSome)))
          | "remove" =>
            if num_args < 2 then
              .error "map.remove() requires an argument"
            else do
              let kv ← readReg fr (first_arg_reg + 1)
              let key := displayValue s1.heap kv
              let res := aremove key entries
              .ok (.next (stSetReg
                { s2 with heap := s2.heap.setCell mcid (.mapC res.2) }
                result_reg (res.1.getD .noneV)))
          | _ => .error ("unknown map method: " ++ method_name)
        | _ => .error "panic: dangling map cell")
      | .str sv =>
        (match method_name with
        | "len" =>
          .ok (.next (stSetReg s2 result_reg (.num (.fin sv.utf8ByteSize))))
        | _ => .error ("unknown string method: " ++ method_name))
      | .agentHandle aid =>
        (match alookup aid s1.agents with
        | none => .error ("agent " ++ toString aid ++ " not found")
        | some agentInst =>
          match s1.module.agents.get? agentInst.descriptor_idx with
          | none =>
            .error ("agent descriptor " ++ toString agentInst.descriptor_idx ++ " not found")
          | some descriptor =>
            match descriptor.methods.find?
                (fun p => (loadConstantStr s1.module p.1).toOption == some method_name) with
            | none => .error ("method not found on agent: " ++ method_name)
            | some m => do
              let arg_values ← collectArgs fr (first_arg_reg + 1) (num_args - 1)
              let s3 ← pushFrame s2 m.2 (some (fr.function_idx, fr.pc + 3, result_reg))
                (some aid)
              .ok (.next (copyArgsFrom s3 0 arg_values)))
      | _ => .error "method call on non-agent"
    | _, _ => .error "panic: instruction index out of bounds"
  else
    match func.instructions.get? (fr.pc + 1) with
    | none => .error "panic: instruction index out of bounds"
    | some extra => do
      let s2 := stSetPc s1 (fr.pc + 2)
      let first_arg_reg := instrB extra
      let num_args := instrC extra
      let arg_values ← collectArgs fr first_arg_reg num_args
      let s3 ← pushFrame s2 func_idx_raw (some (fr.function_idx, fr.pc + 2, result_reg)) none
      .ok (.next (copyArgsFrom s3 0 arg_values))

/-- Ret arm: pop the frame, write r(A) into the caller's result slot. -/
def armRet (s1 : VMState) (fr : Frame) (rest : List Frame) (inst : Nat) :
    Except String StepOut := do
  let return_value ← readReg fr (instrA inst)
  let s2 : VMState := { s1 with call_stack := rest }
  match fr.return_info with
  | some info => .ok (.next (stSetReg s2 info.2.2 return_value))
  | none => .ok (.next s2)

/-- RetNone arm. -/
def armRetNone (s1 : VMState) (fr : Frame) (rest : List Frame) : Except String StepOut :=
  let s2 : VMState := { s1 with call_stack := rest }
  match fr.return_info with
  | some info => .ok (.next (stSetReg s2 info.2.2 .noneV))
  | none => .ok (.next s2)

/-- NewList arm: fresh list cell from C consecutive registers. -/
def armNewList (s1 : VMState) (fr : Frame) (inst : Nat) : Except String StepOut := do
  let items ← collectArgs fr (instrB inst) (instrC inst)
  let pair := s1.heap.alloc (.listC items)
  .ok (.next (stSetReg { s1 with heap := pair.2 } (instrA inst) (.list pair.1)))

/-- NewMap arm: C key/value register pairs; keys stringified via the
display form. -/
def armNewMap (s1 : VMState) (fr : Frame) (inst : Nat) : Except String StepOut := do
  let kvs ← collectArgs fr (instrB inst) (instrC inst * 2)
  let entries := buildMapEntries s1.heap kvs []
  let pair := s1.heap.alloc (.mapC entries)
  .ok (.next (stSetReg { s1 with heap := pair.2 } (instrA inst) (.map pair.1)))

/-- IndexGet arm: list out-of-range reads yield None, missing map keys
yield None. -/
def armIndexGet (s1 : VMState) (fr : Frame) (inst : Nat) : Except String StepOut := do
  let obj ← readReg fr (instrB inst)
  let idx ← readReg fr (instrC inst)
  match obj, idx with
  | .list cid, .num n =>
    (match alookup cid s1.heap.cells with
    | some (.listC items) =>
      .ok (.next (stSetReg s1 (instrA inst) ((items.get? n.toUsize).getD .noneV)))
    | _ => .error "panic: dangling list cell")
  | .map cid, .str key =>
    (match alookup cid s1.heap.cells with
    | some (.mapC entries) =>
      .ok (.next (stSetReg s1 (instrA inst) ((alookup key entries).getD .noneV)))
    | _ => .error "panic: dangling map cell")
  | _, _ => .error "cannot index value"

/-- IndexSet arm: in-range list writes mutate the cell; out-of-range is a
runtime error raised before any write. -/
def armIndexSet (s1 : VMState) (fr : Frame) (inst : Nat) : Except String StepOut := do
  let idx_val ← readReg fr (instrB inst)
  let val ← readReg fr (instrC inst)
  let obj ← readReg fr (instrA inst)
  match obj, idx_val with
  | .list cid, .num n =>
    (match alookup cid s1.heap.cells with
    | some (.listC items) =>
      if n.toUsize < items.length then
        .ok (.next { s1 with heap := s1.heap.setCell cid (.listC (items.set n.toUsize val)) })
      else
        .error ("list index " ++ toString n.toUsize ++ " out of bounds")
    | _ => .error "panic: dangling list cell")
  | .map cid, .str key =>
    (match alookup cid s1.heap.cells with
    | some (.mapC entries) =>
      .ok (.next { s1 with heap := s1.heap.setCell cid (.mapC (ainsert key val entries)) })
    | _ => .error "panic: dangling map cell")
  | _, _ => .error "cannot index-set value"

/-- Len arm. -/
def armLen (s1 : VMState) (fr : Frame) (inst : Nat) : Except String StepOut := do
  let obj ← readReg fr (instrB inst)
  match obj with
  | .list cid =>
    (match alookup cid s1.heap.cells with
    | some (.listC items) => .ok (.next (stSetReg s1 (instrA inst) (.num (.fin items.length))))
    | _ => .error "panic: dangling list cell")
  | .map cid =>
    (match alookup cid s1.heap.cells with
    | some (.mapC entries) => .ok (.next (stSetReg s1 (instrA inst) (.num (.fin entries.length))))
    | _ => .error "panic: dangling map cell")
  | .str sv => .ok (.next (stSetReg s1 (instrA inst) (.num (.fin sv.utf8ByteSize))))
  | _ => .error "cannot get length of value"

/-- ListPush arm: r(A).push(r(B)) mutates the list cell in place. -/
def armListPush (s1 : VMState) (fr : Frame) (inst : Nat) : Except String StepOut := do
  let val ← readReg fr (instrB inst)
  let listv ← readReg fr (instrA inst)
  match listv with
  | .list cid =>
    (match alookup cid s1.heap.cells with
    | some (.listC items) =>
      .ok (.next { s1 with heap := s1.heap.setCell cid (.listC (items ++ [val])) })
    | _ => .error "panic: dangling list cell")
  | _ => .error "cannot push to value"

/-- StrLen arm. -/
def armStrLen (s1 : VMState) (fr : Frame) (inst : Nat) : Except String StepOut := do
  let v ← readReg fr (instrB inst)
  match v with
  | .str sv => .ok (.next (stSetReg s1 (instrA inst) (.num (.fin sv.utf8ByteSize))))
  | _ => .error "StrLen requires string"

/-- IterInit arm: snapshot r(B) — a copy of the list items, or of the map
keys — into a fresh iterator cell with cursor 0. -/
def armIterInit (s1 : VMState) (fr : Frame) (inst : Nat) : Except String StepOut := do
  let source ← readReg fr (instrB inst)
  let items ← (match source with
    | Value.list cid =>
      match alookup cid s1.heap.cells with
      | some (.listC items) => Except.ok items
      | _ => Except.error "panic: dangling list cell"
    | Value.map cid =>
      match alookup cid s1.heap.cells with
      | some (.mapC entries) => Except.ok (entries.map (fun e => Value.str e.1))
      | _ => Except.error "panic: dangling map cell"
    | _ => Except.error "cannot iterate over value")
  let pair := s1.heap.alloc (.iterC items 0)
  .ok (.next (stSetReg { s1 with heap := pair.2 } (instrA inst) (.iterator pair.1)))

/-- IterNext arm (two-word group): read the extra word for the iterator
register; if the cursor is in range write the item to r(A) and advance
the cursor, else leave the cursor and jump by sBx16 from the PC after
both words. -/
def armIterNext (s1 : VMState) (fr : Frame) (func : Func) (inst : Nat) :
    Except String StepOut :=
  let var_reg := instrA inst
  let jump_offset := instrSbx16 inst
  match func.instructions.get? (fr.pc + 1) with
  | none => .error "panic: instruction index out of bounds"
  | some extra => do
    let s2 := stSetPc s1 (fr.pc + 2)
    let iter_reg := instrB extra
    let iter_val ← readReg fr iter_reg
    match iter_val with
    | .iterator cid =>
      (match alookup cid s1.heap.cells with
      | some (.iterC items cursor) =>
        match items.get? cursor with
        | some val =>
          .ok (.next (stSetReg
            { s2 with heap := s2.heap.setCell cid (.iterC items (cursor + 1)) }
            var_reg val))
        | none =>
          .ok (.next (stSetPc s2 (pcJump (fr.pc + 2) jump_offset)))
      | _ => .error "panic: dangling iterator cell")
    | _ => .error "IterNext on non-iterator"

/-- MLoad arm: requires an owning agent; missing fields read as None. -/
def armMLoad (s1 : VMState) (inst : Nat) : Except String StepOut := do
  let field_name ← loadConstantStr s1.module (instrBx inst)
  let agent_id ← currentAgentId s1
  match alookup agent_id s1.agents with
  | none => .error ("agent " ++ toString agent_id ++ " not found")
  | some agent =>
    .ok (.next (stSetReg s1 (instrA inst) ((alookup field_name agent.memory).getD .noneV)))

/-- MStore arm. -/
def armMStore (s1 : VMState) (fr : Frame) (inst : Nat) : Except String StepOut := do
  let field_name ← loadConstantStr s1.module (instrBx inst)
  let value ← readReg fr (instrA inst)
  let agent_id ← currentAgentId s1
  match alookup agent_id s1.agents with
  | none => .error ("agent " ++ toString agent_id ++ " not found")
  | some agent =>
    .ok (.next { s1 with
      agents := ainsert agent_id { agent with memory := ainsert field_name value agent.memory }
        s1.agents })

/-- Spawn arm: materialize memory from the descriptor defaults, allocate
a fresh id, insert the instance, return the handle. -/
def armSpawn (s1 : VMState) (inst : Nat) : Except String StepOut :=
  let bx := instrBx inst
  match s1.module.agents.get? bx with
  | none => .error ("agent descriptor " ++ toString bx ++ " not found")
  | some descriptor => do
    let memory ← spawnMemory s1.module descriptor.memory_fields []
    let id := s1.next_agent_id
    let s2 : VMState := { s1 with
      agents := ainsert id ⟨bx, memory, []⟩ s1.agents,
      next_agent_id := id + 1 }
    .ok (.next (stSetReg s2 (instrA inst) (.agentHandle id)))

/-- Exec arm: stringify the prompt, call the host.  `VM::new` installs
`NoHost`, whose exec always fails; the host boundary itself is external
(spec section 6). -/
def armExec (s1 : VMState) (fr : Frame) (inst : Nat) : Except String StepOut := do
  let pv ← readReg fr (instrB inst)
  let _prompt := displayValue s1.heap pv
  .error "exec error: no host configured: cannot execute LLM prompts"

/-- One iteration of the `VM::execute` dispatch loop.  Mirrors the source
step for step: fetch the current frame and instruction (popping the frame
when the PC ran off the end), decode the opcode, advance the PC by one,
then dispatch to the opcode's arm.  Where the source interpolates a Debug
or Display rendering into an error message that no claim depends on, the
embedding keeps a fixed message.  The tool table (`TCall`) lives in a
part of the module crate outside the embedded fragment and its call goes
to the external host. -/
def execStep (s : VMState) : Except String StepOut :=
  match s.call_stack with
  | [] => .ok (.halted s)
  | fr :: rest =>
    match s.module.functions.get? fr.function_idx with
    | none => .error "invalid function index"
    | some func =>
      match func.instructions.get? fr.pc with
      | none =>
        -- Function ended without explicit return: pop the frame
        .ok (.next { s with call_stack := rest })
      | some inst =>
        match OpCode.fromByte (instrOpcodeByte inst) with
        | none => .error "invalid opcode"
        | some op =>
          -- Advance PC before executing
          let s1 : VMState := { s with call_stack := { fr with pc := fr.pc + 1 } :: rest }
          match op with
          | .Nop => .ok (.next s1)
          | .Halt => .ok (.halted s1)
          | .LoadConst => armLoadConst s1 inst
          | .LoadNone => .ok (.next (stSetReg s1 (instrA inst) .noneV))
          | .LoadTrue => .ok (.next (stSetReg s1 (instrA inst) (.bool true)))
          | .LoadFalse => .ok (.next (stSetReg s1 (instrA inst) (.bool false)))
          | .Move => armMove s1 fr inst
          | .Add => armArith s1 fr inst F64.fadd
          | .Sub => armArith s1 fr inst F64.fsub
          | .Mul => armArith s1 fr inst F64.fmul
          | .Div => armArith s1 fr inst F64.fdiv
          | .Mod => armArith s1 fr inst F64.fmod
          | .Neg => armNeg s1 fr inst
          | .Eq => armEq s1 fr inst
          | .Neq => armNeq s1 fr inst
          | .Lt => armCmp s1 fr inst F64.flt
          | .Lte => armCmp s1 fr inst F64.fle
          | .Gt => armCmp s1 fr inst (fun x y => F64.flt y x)
          | .Gte => armCmp s1 fr inst (fun x y => F64.fle y x)
          | .And => armAnd s1 fr inst
          | .Or => armOr s1 fr inst
          | .Not => armNot s1 fr inst
          | .Concat => armConcat s1 fr inst
          | .Jmp => .ok (.next (stSetPc s1 (pcJump (fr.pc + 1) (instrSbx24 inst))))
          | .JmpTrue => armJmpTrue s1 fr inst
          | .JmpFalse => armJmpFalse s1 fr inst
          | .Emit => armEmit s1 fr inst
          | .Log => armLog s1 fr inst
          | .Call => armCall s1 fr func inst
          | .Ret => armRet s1 fr rest inst
          | .RetNone => armRetNone s1 fr rest
          | .NewList => armNewList s1 fr inst
          | .NewMap => armNewMap s1 fr inst
          | .IndexGet => armIndexGet s1 fr inst
          | .IndexSet => armIndexSet s1 fr inst
          | .Len => armLen s1 fr inst
          | .ListPush => armListPush s1 fr inst
          | .StrLen => armStrLen s1 fr inst
          | .IterInit => armIterInit s1 fr inst
          | .IterNext => armIterNext s1 fr func inst
          | .MLoad => armMLoad s1 inst
          | .MStore => armMStore s1 fr inst
          | .Spawn => armSpawn s1 inst
          | .Exec => armExec s1 fr inst
          | .Send => (execSend s1 (instrA inst) (instrB inst)).map StepOut.next
          | .Recv => (execRecv s1 (instrA inst) (instrB inst)).map StepOut.next
          | .TCall => .error "tool call error: no host configured: cannot call tools"
          | _ => .error "opcode not yet implemented"

/-- "Executing k Send opcodes delivering v1..vk": for each value in turn,
place it in the message register (as the preceding load instruction would)
and run the Send arm with handle register `ha` and message register `mb`. -/
def runSends (ha mb : Nat) (s : VMState) : List Value → Except String VMState
  | [] => .ok s
  | v :: t => do
    let s1 ← execSend (stSetReg s mb v) ha mb
    runSends ha mb s1 t

/-- "Executing k Recv opcodes on h": run the Recv arm `k` times with
destination register `a` and handle register `b`, collecting the value
written to r(a) after each execution. -/
def runRecvs (a b : Nat) : Nat → VMState → Except String (List Value × VMState)
  | 0, s => .ok ([], s)
  | k + 1, s => do
    let s1 ← execRecv s a b
    let v ← (match s1.call_stack with
      | fr :: _ => readReg fr a
      | [] => Except.error "panic: empty call stack")
    let res ← runRecvs a b k s1
    .ok (v :: res.1, res.2)

-- ===================================================================
-- Compiler fragment (`agentus-codegen/src/compiler.rs`)
-- ===================================================================

/-- Binary operators of the surface AST. -/
inductive BinOpK where
  | Add | Sub | Mul | Div | Mod | Concat
  | Eq | Neq | Lt | Lte | Gt | Gte | And | Or
deriving DecidableEq

/-- Unary operators of the surface AST. -/
inductive UnaryOpK where
  | Neg | Not
deriving DecidableEq

mutual
/-- The expression AST fragment relevant to template-literal lowering
(`agentus-parser/src/ast.rs`; source spans carry no semantic content and
are omitted, as are the call forms, which the verified claims never
compile). -/
inductive Expr where
  | stringLit (s : String)
  | templateLit (segments : List TemplateSegment)
  | numberLit (n : F64)
  | boolLit (b : Bool)
  | noneLit
  | ident (name : String)
  | binOp (lhs : Expr) (op : BinOpK) (rhs : Expr)
  | unaryOp (op : UnaryOpK) (e : Expr)

/-- `TemplateSegment`: literal text or an interpolated expression. -/
inductive TemplateSegment where
  | lit (s : String)
  | expr (e : Expr)
end

/-- The opcode for each binary operator (`compile_expr`, BinOp arm). -/
def binOpOpcode : BinOpK → OpCode
  | .Add => .Add
  | .Sub => .Sub
  | .Mul => .Mul
  | .Div => .Div
  | .Mod => .Mod
  | .Concat => .Concat
  | .Eq => .Eq
  | .Neq => .Neq
  | .Lt => .Lt
  | .Lte => .Lte
  | .Gt => .Gt
  | .Gte => .Gte
  | .And => .And
  | .Or => .Or

/-- The opcode for each unary operator. -/
def unaryOpOpcode : UnaryOpK → OpCode
  | .Neg => .Neg
  | .Not => .Not

/-- The `FunctionEmitter` state touched by expression compilation: the
module builder's constant pool, the emitted instruction words, the local
name-to-register map, and the next free register. -/
structure EmitState where
  constants : List Constant
  instructions : List Nat
  locals : List (String × Nat)
  next_register : Nat
deriving DecidableEq

/-- `FunctionEmitter::alloc_register` (the source asserts `reg < 255`;
the panic is embedded as an error). -/
def allocRegister (st : EmitState) : Except String (Nat × EmitState) :=
  if st.next_register < 255 then
    .ok (st.next_register, { st with next_register := st.next_register + 1 })
  else
    .error "panic: register overflow"

/-- `FunctionEmitter::emit`. -/
def emitInstr (st : EmitState) (w : Nat) : EmitState :=
  { st with instructions := st.instructions ++ [w] }

/-- `ModuleBuilder::add_string_constant` against the emitter state. -/
def addStrConst (st : EmitState) (s : String) : Nat × EmitState :=
  let r := addConstant st.constants (.strC s)
  (r.1, { st with constants := r.2 })

/-- `ModuleBuilder::add_num_constant` against the emitter state. -/
def addNumConst (st : EmitState) (n : F64) : Nat × EmitState :=
  let r := addConstant st.constants (.numC n)
  (r.1, { st with constants := r.2 })

mutual
/-- `FunctionEmitter::compile_expr` on the embedded fragment: returns the
register holding the expression's result. -/
def compileExpr : Expr → EmitState → Except String (Nat × EmitState)
  | .stringLit s, st => do
    let rs ← allocRegister st
    let is_ := addStrConst rs.2 s
    .ok (rs.1, emitInstr is_.2 (mkAbx .LoadConst rs.1 is_.1))
  | .templateLit segs, st => do
    let res ← compileSegs segs none st
    match res.1 with
    | some r => .ok (r, res.2)
    | none => do
      -- Empty template — return empty string
      let rs ← allocRegister res.2
      let is_ := addStrConst rs.2 ""
      .ok (rs.1, emitInstr is_.2 (mkAbx .LoadConst rs.1 is_.1))
  | .numberLit n, st => do
    let rs ← allocRegister st
    let is_ := addNumConst rs.2 n
    .ok (rs.1, emitInstr is_.2 (mkAbx .LoadConst rs.1 is_.1))
  | .boolLit b, st => do
    let rs ← allocRegister st
    .ok (rs.1, emitInstr rs.2 (mkOpA (cond b .LoadTrue .LoadFalse) rs.1))
  | .noneLit, st => do
    let rs ← allocRegister st
    .ok (rs.1, emitInstr rs.2 (mkOpA .LoadNone rs.1))
  | .ident name, st =>
    (match alookup name st.locals with
    | some reg => .ok (reg, st)
    | none => .error ("undefined variable: " ++ name))
  | .binOp l op r, st => do
    let lres ← compileExpr l st
    let rres ← compileExpr r lres.2
    let rs ← allocRegister rres.2
    .ok (rs.1, emitInstr rs.2 (mkAbc (binOpOpcode op) rs.1 lres.1 rres.1))
  | .unaryOp op e, st => do
    let eres ← compileExpr e st
    let rs ← allocRegister eres.2
    .ok (rs.1, emitInstr rs.2 (mkAbc (unaryOpOpcode op) rs.1 eres.1 0))
termination_by e _ => sizeOf e

/-- The template-literal loop of `compile_expr`: compile each segment and
chain with `Concat`; the accumulator is the register of the result so
far (`None` before the first segment). -/
def compileSegs : List TemplateSegment → Option Nat → EmitState →
    Except String (Option Nat × EmitState)
  | [], acc, st => .ok (acc, st)
  | seg :: rest, acc, st => do
    let segRes ← (match seg with
      | TemplateSegment.lit s => do
        let rs ← allocRegister st
        let is_ := addStrConst rs.2 s
        Except.ok (rs.1, emitInstr is_.2 (mkAbx .LoadConst rs.1 is_.1))
      | TemplateSegment.expr e => compileExpr e st)
    match acc with
    | none => compileSegs rest (some segRes.1) segRes.2
    | some prev => do
      let cr ← allocRegister segRes.2
      compileSegs rest (some cr.1)
        (emitInstr cr.2 (mkAbc .Concat cr.1 prev segRes.1))
termination_by segs _ _ => sizeOf segs
end

/-- The expression a one-segment template literal is equivalent to: a
literal segment behaves as a string literal, an interpolated segment as
the expression itself. -/
def segAsExpr : TemplateSegment → Expr
  | .lit s => .stringLit s
  | .expr e => e

/-- Count the `Concat` instructions among emitted words. -/
def countConcat (ws : List Nat) : Nat :=
  (ws.filter (fun w => instrOpcodeByte w == OpCode.Concat.toByte)).length

-- ===================================================================
-- Statement-side abbreviations
-- ===================================================================

/-- The state after the dispatcher advanced the PC past the current
one-word instruction (step 3 of the loop). -/
def stepped (s : VMState) (fr : Frame) (rest : List Frame) : VMState :=
  { s with call_stack := { fr with pc := fr.pc + 1 } :: rest }

/-- The values an iterator cell will still yield: the snapshot items from
the cursor on. -/
def iterRemaining (h : Heap) (cid : Nat) : List Value :=
  match alookup cid h.cells with
  | some (.iterC items cursor) => items.drop cursor
  | _ => []

/-- The ordered list of (resolved field name, resolved default) pairs of
an agent descriptor — the reference shape of a freshly spawned memory. -/
def resolveFields (M : Module) : List AgentMemoryField → Except String (List (String × Value))
  | [] => .ok []
  | f :: t => do
    let v ← resolveField M f
    let rest ← resolveFields M t
    .ok (v :: rest)

-- ===================================================================
-- Concrete states for witnesses and counterexamples
-- ===================================================================

/-- A one-frame state about to execute `Eq r2, r0, r1` where r0 and r1
alias the same (empty) list cell. -/
def c5EqState : VMState :=
  { module := { constants := [],
                functions := [{ name_idx := 0, num_params := 0, num_registers := 3,
                                instructions := [mkAbc .Eq 2 0 1] }],
                agents := [], entry_function := 0 },
    call_stack := [{ registers := [.list 0, .list 0, .noneV], function_idx := 0, pc := 0,
                     return_info := none, agent_id := none }],
    outputs := [], agents := [], next_agent_id := 1,
    heap := { cells := [(0, .listC [])], nextCell := 1 } }

/-- Like `c5EqState` but with `Neq r2, r0, r1`. -/
def c5NeqState : VMState :=
  { module := { constants := [],
                functions := [{ name_idx := 0, num_params := 0, num_registers := 3,
                                instructions := [mkAbc .Neq 2 0 1] }],
                agents := [], entry_function := 0 },
    call_stack := [{ registers := [.list 0, .list 0, .noneV], function_idx := 0, pc := 0,
                     return_info := none, agent_id := none }],
    outputs := [], agents := [], next_agent_id := 1,
    heap := { cells := [(0, .listC [])], nextCell := 1 } }

/-- Top-level frame (no `agent_id`) about to execute `MLoad r0, "x"`. -/
def c7LoadState : VMState :=
  { module := { constants := [.strC "x"],
                functions := [{ name_idx := 0, num_params := 0, num_registers := 1,
                                instructions := [mkAbx .MLoad 0 0] }],
                agents := [], entry_function := 0 },
    call_stack := [{ registers := [.noneV], function_idx := 0, pc := 0,
                     return_info := none, agent_id := none }],
    outputs := [], agents := [], next_agent_id := 1,
    heap := { cells := [], nextCell := 0 } }

/-- Top-level frame about to execute `MStore r0, "x"` — the compiled form
of `self.x = 1` at top level. -/
def c7StoreState : VMState :=
  { module := { constants := [.strC "x"],
                functions := [{ name_idx := 0, num_params := 0, num_registers := 1,
                                instructions := [mkAbx .MStore 0 0] }],
                agents := [], entry_function := 0 },
    call_stack := [{ registers := [.num (.fin 1)], function_idx := 0, pc := 0,
                     return_info := none, agent_id := none }],
    outputs := [], agents := [], next_agent_id := 1,
    heap := { cells := [], nextCell := 0 } }

/-- `IndexGet r2, r0, r1` on a one-element list with index 5. -/
def c6GetState : VMState :=
  { module := { constants := [],
                functions := [{ name_idx := 0, num_params := 0, num_registers := 3,
                                instructions := [mkAbc .IndexGet 2 0 1] }],
                agents := [], entry_function := 0 },
    call_stack := [{ registers := [.list 0, .num (.fin 5), .noneV], function_idx := 0, pc := 0,
                     return_info := none, agent_id := none }],
    outputs := [], agents := [], next_agent_id := 1,
    heap := { cells := [(0, .listC [.str "a"])], nextCell := 1 } }

/-- `IndexSet r0, r1, r2` on a one-element list with index 5. -/
def c6SetState : VMState :=
  { module := { constants := [],
                functions := [{ name_idx := 0, num_params := 0, num_registers := 3,
                                instructions := [mkAbc .IndexSet 0 1 2] }],
                agents := [], entry_function := 0 },
    call_stack := [{ registers := [.list 0, .num (.fin 5), .str "v"], function_idx := 0, pc := 0,
                     return_info := none, agent_id := none }],
    outputs := [], agents := [], next_agent_id := 1,
    heap := { cells := [(0, .listC [.str "a"])], nextCell := 1 } }

/-- A two-word `IterNext r0, +7` group (extra word carries B=1) over an
unexhausted iterator in r1. -/
def c2State : VMState :=
  { module := { constants := [],
                functions := [{ name_idx := 0, num_params := 0, num_registers := 2,
                                instructions := [mkAsbx .IterNext 0 7, mkAbc .Nop 0 1 0] }],
                agents := [], entry_function := 0 },
    call_stack := [{ registers := [.noneV, .iterator 0], function_idx := 0, pc := 0,
                     return_info := none, agent_id := none }],
    outputs := [], agents := [], next_agent_id := 1,
    heap := { cells := [(0, .iterC [.str "a"] 0)], nextCell := 1 } }

/-- Like `c2State` but the iterator is exhausted (cursor = length = 1). -/
def c2ExhState : VMState :=
  { module := { constants := [],
                functions := [{ name_idx := 0, num_params := 0, num_registers := 2,
                                instructions := [mkAsbx .IterNext 0 7, mkAbc .Nop 0 1 0] }],
                agents := [], entry_function := 0 },
    call_stack := [{ registers := [.noneV, .iterator 0], function_idx := 0, pc := 0,
                     return_info := none, agent_id := none }],
    outputs := [], agents := [], next_agent_id := 1,
    heap := { cells := [(0, .iterC [.str "a"] 1)], nextCell := 1 } }

/-- About to `Spawn r0, 0` for a descriptor with one field
`count: num = 0`. -/
def c4State : VMState :=
  { module := { constants := [.strC "count", .numC (.fin 0)],
                functions := [{ name_idx := 0, num_params := 0, num_registers := 1,
                                instructions := [mkAbx .Spawn 0 0] }],
                agents := [{ name_idx := 0, model_idx := none, system_prompt_idx := none,
                             memory_fields := [{ name_idx := 0, default_idx := some 1 }],
                             methods := [] }],
                entry_function := 0 },
    call_stack := [{ registers := [.noneV], function_idx := 0, pc := 0,
                     return_info := none, agent_id := none }],
    outputs := [], agents := [], next_agent_id := 1,
    heap := { cells := [], nextCell := 0 } }

/-- About to `IterInit r1, r0` over a one-element list, with a value in
r2 ready to be pushed by the following `ListPush r0, r2`. -/
def c3State : VMState :=
  { module := { constants := [],
                functions := [{ name_idx := 0, num_params := 0, num_registers := 3,
                                instructions := [mkAbc .IterInit 1 0 0, mkAbc .ListPush 0 2 0] }],
                agents := [], entry_function := 0 },
    call_stack := [{ registers := [.list 0, .noneV, .num (.fin 9)], function_idx := 0, pc := 0,
                     return_info := none, agent_id := none }],
    outputs := [], agents := [], next_agent_id := 1,
    heap := { cells := [(0, .listC [.num (.fin 1)])], nextCell := 1 } }

/-- The state after the `IterInit` of `c3State`: the iterator snapshot
lives in cell 1, the `ListPush` is the current instruction. -/
def c3PushState : VMState :=
  { module := { constants := [],
                functions := [{ name_idx := 0, num_params := 0, num_registers := 3,
                                instructions := [mkAbc .IterInit 1 0 0, mkAbc .ListPush 0 2 0] }],
                agents := [], entry_function := 0 },
    call_stack := [{ registers := [.list 0, .iterator 1, .num (.fin 9)], function_idx := 0, pc := 1,
                     return_info := none, agent_id := none }],
    outputs := [], agents := [], next_agent_id := 1,
    heap := { cells := [(0, .listC [.num (.fin 1)]), (1, .iterC [.num (.fin 1)] 0)],
              nextCell := 2 } }

/-- A built-in `list.push` method call: the three-word 0xFFFE `Call`
group, receiver (the list of `c3PushState`) in r2, argument in r3,
result register r4; the method name constant "push" at pool index 0. -/
def c3MPushState : VMState :=
  { module := { constants := [.strC "push"],
                functions := [{ name_idx := 0, num_params := 0, num_registers := 5,
                                instructions := [mkAbx .Call 4 0xFFFE, mkAbc .Nop 0 2 2,
                                                 mkAbx .Nop 0 0] }],
                agents := [], entry_function := 0 },
    call_stack := [{ registers := [.list 0, .iterator 1, .list 0, .num (.fin 9), .noneV],
                     function_idx := 0, pc := 0, return_info := none, agent_id := none }],
    outputs := [], agents := [], next_agent_id := 1,
    heap := { cells := [(0, .listC [.num (.fin 1)]), (1, .iterC [.num (.fin 1)] 0)],
              nextCell := 2 } }

/-- A frame holding the handle of a live agent (empty mailbox) in r0,
with r1 as the scratch message/destination register. -/
def c1State : VMState :=
  { module := { constants := [], functions := [], agents := [], entry_function := 0 },
    call_stack := [{ registers := [.agentHandle 1, .noneV], function_idx := 0, pc := 0,
                     return_info := none, agent_id := none }],
    outputs := [], agents := [(1, { descriptor_idx := 0, memory := [], mailbox := [] })],
    next_agent_id := 2, heap := { cells := [], nextCell := 0 } }

-- ===================================================================
-- Helper lemmas
-- ===================================================================

@[simp]
theorem fromByte_Eq : OpCode.fromByte 0x40 = some OpCode.Eq := rfl

@[simp]
theorem fromByte_Neq : OpCode.fromByte 0x41 = some OpCode.Neq := rfl

@[simp]
theorem fromByte_IndexGet : OpCode.fromByte 0x5A = some OpCode.IndexGet := rfl

@[simp]
theorem fromByte_IndexSet : OpCode.fromByte 0x5B = some OpCode.IndexSet := rfl

@[simp]
theorem fromByte_ListPush : OpCode.fromByte 0x5D = some OpCode.ListPush := rfl

@[simp]
theorem fromByte_MLoad : OpCode.fromByte 0x20 = some OpCode.MLoad := rfl

@[simp]
theorem fromByte_MStore : OpCode.fromByte 0x21 = some OpCode.MStore := rfl

@[simp]
theorem fromByte_Spawn : OpCode.fromByte 0x78 = some OpCode.Spawn := rfl

@[simp]
theorem fromByte_IterInit : OpCode.fromByte 0xA8 = some OpCode.IterInit := rfl

@[simp]
theorem fromByte_IterNext : OpCode.fromByte 0xA9 = some OpCode.IterNext := rfl

@[simp]
theorem fromByte_Call : OpCode.fromByte 0x68 = some OpCode.Call := rfl

@[simp]
theorem exceptBind_ok {α β : Type} (a : α) (f : α → Except String β) :
    (Except.ok a >>= f) = f a := rfl

@[simp]
theorem exceptBind_error {α β : Type} (e : String) (f : α → Except String β) :
    ((Except.error e : Except String α) >>= f) = Except.error e := rfl

@[simp]
theorem exceptMap_ok {α β : Type} (a : α) (f : α → β) :
    (Except.ok a : Except String α).map f = Except.ok (f a) := rfl

@[simp]
theorem exceptMap_error {α β : Type} (e : String) (f : α → β) :
    (Except.error e : Except String α).map f = Except.error e := rfl

@[simp]
theorem alookup_ainsert_self {κ α : Type} [DecidableEq κ] (k : κ) (v : α) (l : List (κ × α)) :
    alookup k (ainsert k v l) = some v := by
  induction l with
  | nil => simp [alookup, ainsert]
  | cons p t ih =>
    obtain ⟨k', v'⟩ := p
    by_cases h : k' = k
    · simp [ainsert, alookup, h]
    · simp [ainsert, alookup, h, ih]

theorem alookup_ainsert_ne {κ α : Type} [DecidableEq κ] (k k' : κ) (v : α) (l : List (κ × α))
    (hne : k ≠ k') : alookup k (ainsert k' v l) = alookup k l := by
  have h1 : ¬ k' = k := fun he => hne he.symm
  induction l with
  | nil => simp [alookup, ainsert, h1]
  | cons p t ih =>
    obtain ⟨k0, v0⟩ := p
    by_cases h : k0 = k'
    · subst h
      simp [ainsert, alookup, h1]
    · by_cases h2 : k0 = k <;> simp [ainsert, alookup, h, h2, h1, hne, ih]

theorem ainsert_ainsert {κ α : Type} [DecidableEq κ] (k : κ) (v w : α) (l : List (κ × α)) :
    ainsert k v (ainsert k w l) = ainsert k v l := by
  induction l with
  | nil => simp [ainsert]
  | cons p t ih =>
    obtain ⟨k0, v0⟩ := p
    by_cases h : k0 = k <;> simp [ainsert, h, ih]

theorem ainsert_self_of_alookup {κ α : Type} [DecidableEq κ] (k : κ) (v : α) (l : List (κ × α))
    (h : alookup k l = some v) : ainsert k v l = l := by
  induction l with
  | nil => simp [alookup] at h
  | cons p t ih =>
    obtain ⟨k0, v0⟩ := p
    by_cases hk : k0 = k
    · subst hk
      simp [alookup] at h
      simp [ainsert, h]
    · simp [alookup, hk] at h
      simp [ainsert, hk, ih h]

theorem alookup_mem {κ α : Type} [DecidableEq κ] (k : κ) (v : α) (l : List (κ × α))
    (h : alookup k l = some v) : (k, v) ∈ l := by
  induction l with
  | nil => simp [alookup] at h
  | cons p t ih =>
    obtain ⟨k0, v0⟩ := p
    by_cases hk : k0 = k
    · subst hk
      simp [alookup] at h
      simp [h]
    · simp [alookup, hk] at h
      exact List.mem_cons_of_mem _ (ih h)

theorem alookup_none_of_bound {α : Type} (k : Nat) (l : List (Nat × α))
    (h : ∀ p ∈ l, p.1 < k) : alookup k l = none := by
  induction l with
  | nil => rfl
  | cons p t ih =>
    obtain ⟨k0, v0⟩ := p
    have hlt : k0 < k := h (k0, v0) (List.mem_cons_self _ _)
    have : k0 ≠ k := Nat.ne_of_lt hlt
    simp [alookup, this]
    exact ih (fun q hq => h q (List.mem_cons_of_mem _ hq))

theorem ainsert_append_of_not_mem {κ α : Type} [DecidableEq κ] (k : κ) (v : α)
    (l : List (κ × α)) (h : k ∉ l.map Prod.fst) : ainsert k v l = l ++ [(k, v)] := by
  induction l with
  | nil => simp [ainsert]
  | cons p t ih =>
    obtain ⟨k0, v0⟩ := p
    simp only [List.map_cons, List.mem_cons] at h
    push_neg at h
    have hk : ¬ k0 = k := fun he => h.1 he.symm
    simp [ainsert, hk, ih h.2]

theorem setRegs_get_eq (rs : List Value) (i : Nat) (v : Value) :
    (setRegs rs i v).get? i = some v := by
  unfold setRegs
  by_cases h : rs.length ≤ i
  · have hlen : (rs ++ List.replicate (i + 1 - rs.length) Value.noneV).length = i + 1 := by
      simp [List.length_append, List.length_replicate]
      omega
    simp only [h, if_true]
    rw [List.get?_set_eq_of_lt]
    omega
  · simp only [h, if_false]
    rw [List.get?_set_eq_of_lt]
    omega

theorem setRegs_get_ne (rs : List Value) (i j : Nat) (v : Value) (hne : j ≠ i)
    (hj : j < rs.length) : (setRegs rs i v).get? j = rs.get? j := by
  unfold setRegs
  by_cases h : rs.length ≤ i
  · simp only [h, if_true]
    rw [List.get?_set_ne _ _ (fun he => hne he.symm)]
    exact List.get?_append hj
  · simp only [h, if_false]
    exact List.get?_set_ne _ _ (fun he => hne he.symm)

theorem setRegs_length (rs : List Value) (i : Nat) (v : Value) (h : i < rs.length) :
    (setRegs rs i v).length = rs.length := by
  unfold setRegs
  simp [Nat.not_le.mpr h]

theorem valueEq_false_of_not_like (a b : Value) (h : likeScalars a b = false) :
    valueEq a b = false := by
  cases a <;> cases b <;> simp_all [likeScalars, valueEq]

theorem findEqIdx_append_self (c : Constant) (cs : List Constant)
    (hnone : findEqIdx c cs = none) (hc : constantEq c c = true) :
    findEqIdx c (cs ++ [c]) = some cs.length := by
  induction cs with
  | nil => simp [findEqIdx, hc]
  | cons e t ih =>
    by_cases he : constantEq e c
    · simp [findEqIdx, he] at hnone
    · simp [findEqIdx, he] at hnone ⊢
      simp [ih hnone]

@[simp]
theorem displayValueFuel_str (h : Heap) (fuel : Nat) (s : String) :
    displayValueFuel h fuel (.str s) = s := by
  simp [displayValueFuel]

theorem asI32_of_lt (n : Nat) (h : n < 2 ^ 31) : asI32 n = n := by
  simp only [asI32]
  split <;> omega

theorem mem_ainsert {κ α : Type} [DecidableEq κ] (p : κ × α) (k : κ) (v : α)
    (l : List (κ × α)) (h : p ∈ ainsert k v l) : p = (k, v) ∨ p ∈ l := by
  induction l with
  | nil => simpa [ainsert] using h
  | cons q t ih =>
    obtain ⟨k0, v0⟩ := q
    by_cases hk : k0 = k
    · simp [ainsert, hk] at h
      rcases h with h | h
      · exact Or.inl (by simp [h])
      · exact Or.inr (List.mem_cons_of_mem _ h)
    · simp [ainsert, hk] at h
      rcases h with h | h
      · exact Or.inr (by simp [h])
      · rcases ih h with h2 | h2
        · exact Or.inl h2
        · exact Or.inr (List.mem_cons_of_mem _ h2)

theorem spawnMemory_of_resolveFields (M : Module) :
    ∀ (fields : List AgentMemoryField) (acc binds : List (String × Value)),
      resolveFields M fields = .ok binds →
      ((acc ++ binds).map Prod.fst).Nodup →
      spawnMemory M fields acc = .ok (acc ++ binds) := by
  intro fields
  induction fields with
  | nil =>
    intro acc binds h _
    simp [resolveFields] at h
    subst h
    simp [spawnMemory]
  | cons f t ih =>
    intro acc binds h hnd
    rw [resolveFields] at h
    cases hv : resolveField M f with
    | error e => rw [hv] at h; simp at h
    | ok v =>
      rw [hv] at h
      simp at h
      cases hr : resolveFields M t with
      | error e => rw [hr] at h; simp at h
      | ok rest =>
        rw [hr] at h
        simp at h
        subst h
        have hmap : ((acc.map Prod.fst) ++ (v.1 :: rest.map Prod.fst)).Nodup := by
          simpa using hnd
        rw [List.nodup_append] at hmap
        have hnotin : v.1 ∉ acc.map Prod.fst :=
          fun hmem => hmap.2.2 hmem (List.mem_cons_self _ _)
        rw [spawnMemory, hv]
        simp only [exceptBind_ok]
        rw [ainsert_append_of_not_mem _ _ _ hnotin]
        have hres := ih (acc ++ [(v.1, v.2)]) rest hr (by simpa using hnd)
        simpa using hres

theorem alookup_append_of_none {κ α : Type} [DecidableEq κ] (k : κ) (l l' : List (κ × α))
    (h : alookup k l = none) : alookup k (l ++ l') = alookup k l' := by
  induction l with
  | nil => simp
  | cons p t ih =>
    obtain ⟨k0, v0⟩ := p
    by_cases hk : k0 = k
    · simp [alookup, hk] at h
    · simp [alookup, hk] at h ⊢
      exact ih h

/-- A successful optional index implies the index is in range. -/
theorem getElem?_lt {l : List Value} {n : Nat} {v : Value} (h : l[n]? = some v) :
    n < l.length := by
  rcases List.getElem?_eq_some.mp h with ⟨hlt, _⟩
  exact hlt

/-- Executing the Send arm once per value (each delivered through the
message register) appends the values, in order, to the target agent's
mailbox, and touches nothing else: the handle register still holds the
handle and the register file keeps its length. -/
theorem runSends_ok (h ha mb : Nat) (hne : ha ≠ mb) :
    ∀ (vs : List Value) (s : VMState) (fr : Frame) (rest : List Frame) (inst : AgentInstance),
      s.call_stack = fr :: rest →
      fr.registers[ha]? = some (.agentHandle h) →
      mb < fr.registers.length →
      alookup h s.agents = some inst →
      ∃ fr' : Frame,
        runSends ha mb s vs =
          .ok { s with
                call_stack := fr' :: rest,
                agents := ainsert h { inst with mailbox := inst.mailbox ++ vs } s.agents } ∧
        fr'.registers[ha]? = some (.agentHandle h) ∧
        fr'.registers.length = fr.registers.length := by
  intro vs
  induction vs with
  | nil =>
    intro s fr rest inst hstack hha hmb hag
    refine ⟨fr, ?_, hha, rfl⟩
    rw [runSends]
    have h1 : ({ inst with mailbox := inst.mailbox ++ [] } : AgentInstance) = inst := by simp
    rw [h1, ainsert_self_of_alookup _ _ _ hag, ← hstack]
  | cons v t ih =>
    intro s fr rest inst hstack hha hmb hag
    have hha_lt : ha < fr.registers.length := getElem?_lt hha
    have hset : stSetReg s mb v = { s with call_stack :=
        { fr with registers := setRegs fr.registers mb v } :: rest } := by
      simp [stSetReg, hstack]
    have hha2 : (setRegs fr.registers mb v)[ha]? = some (.agentHandle h) := by
      rw [← List.get?_eq_getElem?] at hha ⊢
      rw [setRegs_get_ne _ _ _ _ hne hha_lt]
      exact hha
    have hlen2 : (setRegs fr.registers mb v).length = fr.registers.length :=
      setRegs_length _ _ _ hmb
    have hmbv : (setRegs fr.registers mb v)[mb]? = some v := by
      rw [← List.get?_eq_getElem?]
      exact setRegs_get_eq _ _ _
    have hsend : execSend (stSetReg s mb v) ha mb =
        .ok { s with
              call_stack := { fr with registers := setRegs fr.registers mb v } :: rest,
              agents := ainsert h { inst with mailbox := inst.mailbox ++ [v] } s.agents } := by
      rw [hset]
      simp [execSend, readReg, hha2, hmbv, hag]
    obtain ⟨fr2, heq, hha3, hlen3⟩ := ih
      { s with
        call_stack := { fr with registers := setRegs fr.registers mb v } :: rest,
        agents := ainsert h { inst with mailbox := inst.mailbox ++ [v] } s.agents }
      { fr with registers := setRegs fr.registers mb v } rest
      { inst with mailbox := inst.mailbox ++ [v] }
      rfl hha2 (by rw [hlen2]; exact hmb) (by simp)
    refine ⟨fr2, ?_, hha3, by rw [hlen3, hlen2]⟩
    rw [runSends, hsend]
    simp only [exceptBind_ok]
    rw [heq]
    simp [ainsert_ainsert]

/-- Executing the Recv arm `m.length + 1` times on an agent whose
mailbox holds `m` yields the values of `m` in order followed by None. -/
theorem runRecvs_ok (h a b : Nat) (hne : b ≠ a) :
    ∀ (m : List Value) (s : VMState) (fr : Frame) (rest : List Frame) (inst : AgentInstance),
      s.call_stack = fr :: rest →
      fr.registers[b]? = some (.agentHandle h) →
      a < fr.registers.length →
      alookup h s.agents = some inst →
      inst.mailbox = m →
      ∃ s' : VMState, runRecvs a b (m.length + 1) s = .ok (m ++ [Value.noneV], s') := by
  intro m
  induction m with
  | nil =>
    intro s fr rest inst hstack hb ha hag hmail
    have hrecv : execRecv s a b =
        .ok (stSetReg { s with
            agents := ainsert h { inst with mailbox := [] } s.agents } a Value.noneV) := by
      simp [execRecv, hstack, readReg, hb, hag, hmail]
    have hset : stSetReg { s with
        agents := ainsert h { inst with mailbox := [] } s.agents } a Value.noneV =
        { s with
          call_stack := { fr with registers := setRegs fr.registers a Value.noneV } :: rest,
          agents := ainsert h { inst with mailbox := [] } s.agents } := by
      simp [stSetReg, hstack]
    have hget : (setRegs fr.registers a Value.noneV).get? a = some Value.noneV :=
      setRegs_get_eq _ _ _
    have hget2 : (setRegs fr.registers a Value.noneV)[a]? = some Value.noneV := by
      rw [← List.get?_eq_getElem?]
      exact hget
    refine ⟨{ s with
        call_stack := { fr with registers := setRegs fr.registers a Value.noneV } :: rest,
        agents := ainsert h { inst with mailbox := [] } s.agents }, ?_⟩
    rw [runRecvs, hrecv]
    simp only [exceptBind_ok]
    rw [hset]
    dsimp only
    simp [readReg, hget, hget2, runRecvs]
  | cons v t ih =>
    intro s fr rest inst hstack hb ha hag hmail
    have hb_lt : b < fr.registers.length := getElem?_lt hb
    have hrecv : execRecv s a b =
        .ok (stSetReg { s with
            agents := ainsert h { inst with mailbox := t } s.agents } a v) := by
      simp [execRecv, hstack, readReg, hb, hag, hmail]
    have hset : stSetReg { s with
        agents := ainsert h { inst with mailbox := t } s.agents } a v =
        { s with
          call_stack := { fr with registers := setRegs fr.registers a v } :: rest,
          agents := ainsert h { inst with mailbox := t } s.agents } := by
      simp [stSetReg, hstack]
    have hget : (setRegs fr.registers a v).get? a = some v := setRegs_get_eq _ _ _
    have hget2 : (setRegs fr.registers a v)[a]? = some v := by
      rw [← List.get?_eq_getElem?]
      exact hget
    have hb2 : (setRegs fr.registers a v)[b]? = some (.agentHandle h) := by
      rw [← List.get?_eq_getElem?] at hb ⊢
      rw [setRegs_get_ne _ _ _ _ hne hb_lt]
      exact hb
    have hlen2 : (setRegs fr.registers a v).length = fr.registers.length :=
      setRegs_length _ _ _ ha
    obtain ⟨s2, heq⟩ := ih
      { s with
        call_stack := { fr with registers := setRegs fr.registers a v } :: rest,
        agents := ainsert h { inst with mailbox := t } s.agents }
      { fr with registers := setRegs fr.registers a v } rest
      { inst with mailbox := t }
      rfl hb2 (by rw [hlen2]; exact ha) (by simp) rfl
    refine ⟨s2, ?_⟩
    rw [runRecvs, hrecv]
    simp only [exceptBind_ok]
    rw [hset]
    dsimp only
    simp only [readReg, List.length_cons, hget, hget2, exceptBind_ok]
    rw [heq]
    simp

theorem opByte_lt (op : OpCode) : op.toByte < 256 := by
  cases op <;> decide

theorem instrOpcodeByte_mkAbx (op : OpCode) (a bx : Nat) :
    instrOpcodeByte (mkAbx op a bx) = op.toByte := by
  have h1 : a % 256 < 256 := Nat.mod_lt _ (by norm_num)
  have h2 : bx % 2 ^ 16 < 2 ^ 16 := Nat.mod_lt _ (by norm_num)
  have h3 := opByte_lt op
  simp only [instrOpcodeByte, mkAbx]
  omega

theorem instrOpcodeByte_mkAbc (op : OpCode) (a b c : Nat) :
    instrOpcodeByte (mkAbc op a b c) = op.toByte := by
  have h1 : a % 256 < 256 := Nat.mod_lt _ (by norm_num)
  have h2 : b % 256 < 256 := Nat.mod_lt _ (by norm_num)
  have h3 : c % 256 < 256 := Nat.mod_lt _ (by norm_num)
  have h4 := opByte_lt op
  simp only [instrOpcodeByte, mkAbc]
  omega

theorem countConcat_append (ws1 ws2 : List Nat) :
    countConcat (ws1 ++ ws2) = countConcat ws1 + countConcat ws2 := by
  simp [countConcat, List.filter_append]

-- ===================================================================
-- C8 — constant-pool interning
-- ===================================================================

/-- Claim C8, counterexample: the claim quantifies over every constant,
but `Num NaN` is not equal to itself under the derived `PartialEq`
(IEEE `==`), so adding it twice pushes two pool entries and returns two
different indices.  (Spec section 9 itself flags NaN deduplication as
unspecified.) -/
theorem addConstant_nan_counterexample :
    (addConstant [] (Constant.numC F64.nan)).1 = 0 ∧
    (addConstant (addConstant [] (Constant.numC F64.nan)).2 (Constant.numC F64.nan)).1 = 1 ∧
    (addConstant (addConstant [] (Constant.numC F64.nan)).2 (Constant.numC F64.nan)).2.length =
      (addConstant [] (Constant.numC F64.nan)).2.length + 1 := by
  decide

/-- Claim C8 (amended): for every constant `c` that is equal to itself
under the pool's equality (every constant except `Num NaN`) and every
pool state, adding `c` twice via `add_constant` returns the same index
both times, and the second insertion leaves the pool unchanged — in
particular its length.  Structurally equal self-equal constants share one
index. -/
theorem addConstant_dedup_idempotent (cs : List Constant) (c : Constant)
    (hc : constantEq c c = true) :
    (addConstant (addConstant cs c).2 c).1 = (addConstant cs c).1 ∧
    (addConstant (addConstant cs c).2 c).2 = (addConstant cs c).2 := by
  unfold addConstant
  cases hfind : findEqIdx c cs with
  | some i => simp [hfind]
  | none => simp [hfind, findEqIdx_append_self c cs hfind hc]

/-- Witness for C8: the amended theorem applied to the spec's own
example, `add(Str "x")` twice on an empty pool. -/
theorem addConstant_dedup_idempotent_witness :
    constantEq (Constant.strC "x") (Constant.strC "x") = true ∧
    ((addConstant (addConstant [] (Constant.strC "x")).2 (Constant.strC "x")).1 =
        (addConstant [] (Constant.strC "x")).1 ∧
      (addConstant (addConstant [] (Constant.strC "x")).2 (Constant.strC "x")).2 =
        (addConstant [] (Constant.strC "x")).2) :=
  ⟨by decide, addConstant_dedup_idempotent [] (Constant.strC "x") (by decide)⟩

-- ===================================================================
-- C9 — Concat associativity
-- ===================================================================

/-- Claim C9: `Concat` is associative as string values: for all runtime
values A, B, C (of any type) and any heap, `Concat(A, Concat(B, C))` and
`Concat(Concat(A, B), C)` produce equal `Str` results, because `Concat`
stringifies both operands via the display form before joining and the
display form of a `Str` is the string itself.  (`Concat` never touches
the heap, so chained executions stringify against the same heap; the
`Concat` arm of `execStep` writes exactly `concatValues`.) -/
theorem concatValues_assoc (h : Heap) (a b c : Value) :
    concatValues h a (concatValues h b c) = concatValues h (concatValues h a b) c := by
  simp [concatValues, displayValue, String.append_assoc]

-- ===================================================================
-- C5 — Eq/Neq on non-scalar pairs
-- ===================================================================

/-- Supporting example for C5: `Neq` writes the negation of the (false)
comparison — on two aliases of the same list cell it stores `Bool true`
in the destination register. -/
theorem neq_alias_example :
    execStep c5NeqState = .ok (.next { c5NeqState with
      call_stack := [{ registers := [.list 0, .list 0, .bool true], function_idx := 0, pc := 1,
                       return_info := none, agent_id := none }] }) ∧
    Value.bool true ≠ Value.bool false := by
  exact ⟨rfl, by decide⟩

/-- Claim C5: `Eq`/`Neq` compare only like-typed scalars; for every
other pair of operands — mixed types, or any List, Map, AgentHandle,
Error or Iterator operand, including two aliases of the same container —
the comparison (the `PartialEq` equality both opcodes share) is false:
`Eq` writes `Bool false` and `Neq`, its negation, writes `Bool true`. -/
theorem eq_neq_non_scalar (s : VMState) (fr : Frame) (rest : List Frame) (func : Func)
    (w : Nat) (vb vc : Value)
    (hstack : s.call_stack = fr :: rest)
    (hfunc : s.module.functions[fr.function_idx]? = some func)
    (hinst : func.instructions[fr.pc]? = some w)
    (hb : fr.registers[instrB w]? = some vb)
    (hc : fr.registers[instrC w]? = some vc)
    (hlike : likeScalars vb vc = false) :
    valueEq vb vc = false ∧
    (instrOpcodeByte w = 0x40 →
      execStep s = .ok (.next (stSetReg (stepped s fr rest) (instrA w) (.bool false)))) ∧
    (instrOpcodeByte w = 0x41 →
      execStep s = .ok (.next (stSetReg (stepped s fr rest) (instrA w) (.bool true)))) := by
  have hv := valueEq_false_of_not_like vb vc hlike
  refine ⟨hv, ?_, ?_⟩ <;> intro hop <;>
    simp [execStep, hstack, hfunc, hinst, hop, armEq, armNeq, readReg, hb, hc, stepped, hv]

/-- Witness for C5: the amended theorem applied to an `Eq` instruction
over two aliases of one list cell. -/
theorem eq_neq_non_scalar_witness :
    valueEq (.list 0) (.list 0) = false ∧
    (instrOpcodeByte (mkAbc .Eq 2 0 1) = 0x40 →
      execStep c5EqState = .ok (.next (stSetReg
        (stepped c5EqState
          { registers := [.list 0, .list 0, .noneV], function_idx := 0, pc := 0,
            return_info := none, agent_id := none } [])
        (instrA (mkAbc .Eq 2 0 1)) (.bool false)))) ∧
    (instrOpcodeByte (mkAbc .Eq 2 0 1) = 0x41 →
      execStep c5EqState = .ok (.next (stSetReg
        (stepped c5EqState
          { registers := [.list 0, .list 0, .noneV], function_idx := 0, pc := 0,
            return_info := none, agent_id := none } [])
        (instrA (mkAbc .Eq 2 0 1)) (.bool true)))) :=
  eq_neq_non_scalar c5EqState
    { registers := [.list 0, .list 0, .noneV], function_idx := 0, pc := 0,
      return_info := none, agent_id := none } []
    { name_idx := 0, num_params := 0, num_registers := 3, instructions := [mkAbc .Eq 2 0 1] }
    (mkAbc .Eq 2 0 1) (.list 0) (.list 0) rfl rfl rfl rfl rfl (by decide)

-- ===================================================================
-- C7 — MLoad/MStore require an agent context
-- ===================================================================

/-- Claim C7: `MLoad` and `MStore` succeed only in a frame whose
`agent_id` is set: whenever either executes in a frame without an owning
agent id (in particular the top-level frame, as in `self.x = 1` at top
level) and the field-name constant resolves, the VM fails with the
runtime error "not in an agent context".  (The field-name lookup precedes
the context check in the source, hence the resolution hypothesis.) -/
theorem mload_mstore_agent_context :
    (∀ (s : VMState) (fr : Frame) (rest : List Frame) (func : Func) (w : Nat) (fname : String),
      s.call_stack = fr :: rest →
      s.module.functions[fr.function_idx]? = some func →
      func.instructions[fr.pc]? = some w →
      instrOpcodeByte w = 0x20 →
      loadConstantStr s.module (instrBx w) = .ok fname →
      fr.agent_id = none →
      execStep s = .error "not in an agent context") ∧
    (∀ (s : VMState) (fr : Frame) (rest : List Frame) (func : Func) (w : Nat) (fname : String)
        (v : Value),
      s.call_stack = fr :: rest →
      s.module.functions[fr.function_idx]? = some func →
      func.instructions[fr.pc]? = some w →
      instrOpcodeByte w = 0x21 →
      loadConstantStr s.module (instrBx w) = .ok fname →
      fr.registers[instrA w]? = some v →
      fr.agent_id = none →
      execStep s = .error "not in an agent context") := by
  constructor
  · intro s fr rest func w fname hstack hfunc hinst hop hname hag
    obtain ⟨regs, fidx, pc, ri, aid⟩ := fr
    simp only at hag
    subst hag
    simp [execStep, hstack, hfunc, hinst, hop, armMLoad, currentAgentId, hname]
  · intro s fr rest func w fname v hstack hfunc hinst hop hname hv hag
    obtain ⟨regs, fidx, pc, ri, aid⟩ := fr
    simp only at hag hv
    subst hag
    simp [execStep, hstack, hfunc, hinst, hop, armMStore, currentAgentId, hname, readReg, hv]

/-- Witness for C7: a top-level `MLoad` and the compiled form of
`self.x = 1` at top level both abort with "not in an agent context". -/
theorem mload_mstore_agent_context_witness :
    execStep c7LoadState = .error "not in an agent context" ∧
    execStep c7StoreState = .error "not in an agent context" :=
  ⟨mload_mstore_agent_context.1 c7LoadState
      { registers := [.noneV], function_idx := 0, pc := 0, return_info := none, agent_id := none }
      [] { name_idx := 0, num_params := 0, num_registers := 1, instructions := [mkAbx .MLoad 0 0] }
      (mkAbx .MLoad 0 0) "x" rfl rfl rfl rfl rfl rfl,
   mload_mstore_agent_context.2 c7StoreState
      { registers := [.num (.fin 1)], function_idx := 0, pc := 0, return_info := none,
        agent_id := none }
      [] { name_idx := 0, num_params := 0, num_registers := 1, instructions := [mkAbx .MStore 0 0] }
      (mkAbx .MStore 0 0) "x" (.num (.fin 1)) rfl rfl rfl rfl rfl rfl rfl⟩

-- ===================================================================
-- C6 — out-of-bounds list access asymmetry
-- ===================================================================

/-- Claim C6: out-of-bounds list access is asymmetric between read and
write: for every list of length n and numeric index i with i ≥ n,
`IndexGet` writes None to the destination register and execution
continues, while `IndexSet` fails with the runtime error
"list index i out of bounds".  The error is raised before the write, so
the list cell is untouched (the `Err` return aborts the run with the
`RefCell` contents unmodified). -/
theorem indexget_indexset_oob :
    (∀ (s : VMState) (fr : Frame) (rest : List Frame) (func : Func) (w : Nat)
        (cid : Nat) (items : List Value) (n : F64),
      s.call_stack = fr :: rest →
      s.module.functions[fr.function_idx]? = some func →
      func.instructions[fr.pc]? = some w →
      instrOpcodeByte w = 0x5A →
      fr.registers[instrB w]? = some (.list cid) →
      fr.registers[instrC w]? = some (.num n) →
      alookup cid s.heap.cells = some (.listC items) →
      items.length ≤ n.toUsize →
      execStep s = .ok (.next (stSetReg (stepped s fr rest) (instrA w) .noneV))) ∧
    (∀ (s : VMState) (fr : Frame) (rest : List Frame) (func : Func) (w : Nat)
        (cid : Nat) (items : List Value) (n : F64) (v : Value),
      s.call_stack = fr :: rest →
      s.module.functions[fr.function_idx]? = some func →
      func.instructions[fr.pc]? = some w →
      instrOpcodeByte w = 0x5B →
      fr.registers[instrA w]? = some (.list cid) →
      fr.registers[instrB w]? = some (.num n) →
      fr.registers[instrC w]? = some v →
      alookup cid s.heap.cells = some (.listC items) →
      items.length ≤ n.toUsize →
      execStep s = .error ("list index " ++ toString n.toUsize ++ " out of bounds")) := by
  constructor
  · intro s fr rest func w cid items n hstack hfunc hinst hop hb hc hcell hge
    have hnone : items[n.toUsize]? = none := by
      rw [List.getElem?_eq_none_iff]
      exact hge
    simp [execStep, hstack, hfunc, hinst, hop, armIndexGet, readReg, hb, hc, hcell, stepped,
      hnone]
  · intro s fr rest func w cid items n v hstack hfunc hinst hop ha hb hc hcell hge
    have hlt : ¬ n.toUsize < items.length := Nat.not_lt.mpr hge
    simp [execStep, hstack, hfunc, hinst, hop, armIndexSet, readReg, ha, hb, hc, hcell, hlt]

/-- Witness for C6: index 5 on a one-element list — `IndexGet` writes
None and continues, `IndexSet` aborts with the out-of-bounds error. -/
theorem indexget_indexset_oob_witness :
    execStep c6GetState = .ok (.next (stSetReg
      (stepped c6GetState
        { registers := [.list 0, .num (.fin 5), .noneV], function_idx := 0, pc := 0,
          return_info := none, agent_id := none } [])
      (instrA (mkAbc .IndexGet 2 0 1)) .noneV)) ∧
    execStep c6SetState = .error ("list index " ++ toString (F64.fin 5).toUsize ++
      " out of bounds") :=
  ⟨indexget_indexset_oob.1 c6GetState
      { registers := [.list 0, .num (.fin 5), .noneV], function_idx := 0, pc := 0,
        return_info := none, agent_id := none }
      [] { name_idx := 0, num_params := 0, num_registers := 3,
           instructions := [mkAbc .IndexGet 2 0 1] }
      (mkAbc .IndexGet 2 0 1) 0 [.str "a"] (.fin 5) rfl rfl rfl rfl rfl rfl rfl (by decide),
   indexget_indexset_oob.2 c6SetState
      { registers := [.list 0, .num (.fin 5), .str "v"], function_idx := 0, pc := 0,
        return_info := none, agent_id := none }
      [] { name_idx := 0, num_params := 0, num_registers := 3,
           instructions := [mkAbc .IndexSet 0 1 2] }
      (mkAbc .IndexSet 0 1 2) 0 [.str "a"] (.fin 5) (.str "v") rfl rfl rfl rfl rfl rfl rfl rfl
      (by decide)⟩

-- ===================================================================
-- C2 — IterNext two-word group semantics
-- ===================================================================

/-- Claim C2: when `IterNext` executes over an iterator whose cursor is
in range, it writes the current item to r(A) and advances the cursor by
one (PC moves past both words of the group); when the cursor is
exhausted, the cursor is NOT advanced and the PC jumps by the sBx16
offset of the first word measured from the position after both words
(`pc + 2 + sBx16`; the `usize → i32` cast is the identity for any
realistic PC, hypothesis `hpc`). -/
theorem iternext_two_word (s : VMState) (fr : Frame) (rest : List Frame) (func : Func)
    (w1 w2 : Nat) (cid : Nat) (items : List Value) (cursor : Nat)
    (hstack : s.call_stack = fr :: rest)
    (hfunc : s.module.functions[fr.function_idx]? = some func)
    (h1 : func.instructions[fr.pc]? = some w1)
    (hop : instrOpcodeByte w1 = 0xA9)
    (h2 : func.instructions[fr.pc + 1]? = some w2)
    (hreg : fr.registers[instrB w2]? = some (.iterator cid))
    (hcell : alookup cid s.heap.cells = some (.iterC items cursor))
    (hpc : fr.pc + 2 < 2 ^ 31) :
    (∀ val, items[cursor]? = some val →
      execStep s = .ok (.next (stSetReg
        { s with call_stack := { fr with pc := fr.pc + 2 } :: rest,
                 heap := s.heap.setCell cid (.iterC items (cursor + 1)) }
        (instrA w1) val))) ∧
    (items[cursor]? = none →
      execStep s = .ok (.next { s with
        call_stack := { fr with pc := asUsize ((fr.pc : Int) + 2 + instrSbx16 w1) } :: rest })) := by
  have hj : pcJump (fr.pc + 2) (instrSbx16 w1) = asUsize ((fr.pc : Int) + 2 + instrSbx16 w1) := by
    unfold pcJump
    rw [asI32_of_lt _ hpc]
    norm_num
  constructor
  · intro val hval
    simp [execStep, hstack, hfunc, h1, hop, armIterNext, h2, readReg, hreg, hcell, hval,
      stSetPc]
  · intro hnone
    simp [execStep, hstack, hfunc, h1, hop, armIterNext, h2, readReg, hreg, hcell, hnone,
      stSetPc, hj]

/-- Witness for C2: one unexhausted and one exhausted `IterNext` group
over a one-element snapshot, with exhaustion offset 7 (the jump lands at
`0 + 2 + 7`). -/
theorem iternext_two_word_witness :
    execStep c2State = .ok (.next (stSetReg
      { c2State with
          call_stack := [{ registers := [.noneV, .iterator 0], function_idx := 0, pc := 2,
                           return_info := none, agent_id := none }],
          heap := c2State.heap.setCell 0 (.iterC [.str "a"] 1) }
      (instrA (mkAsbx .IterNext 0 7)) (.str "a"))) ∧
    execStep c2ExhState = .ok (.next { c2ExhState with
      call_stack := [{ registers := [.noneV, .iterator 0], function_idx := 0,
                       pc := asUsize ((0 : Int) + 2 + instrSbx16 (mkAsbx .IterNext 0 7)),
                       return_info := none, agent_id := none }] }) :=
  ⟨(iternext_two_word c2State
      { registers := [.noneV, .iterator 0], function_idx := 0, pc := 0,
        return_info := none, agent_id := none }
      [] { name_idx := 0, num_params := 0, num_registers := 2,
           instructions := [mkAsbx .IterNext 0 7, mkAbc .Nop 0 1 0] }
      (mkAsbx .IterNext 0 7) (mkAbc .Nop 0 1 0) 0 [.str "a"] 0
      rfl rfl rfl rfl rfl rfl rfl (by decide)).1 (.str "a") rfl,
   (iternext_two_word c2ExhState
      { registers := [.noneV, .iterator 0], function_idx := 0, pc := 0,
        return_info := none, agent_id := none }
      [] { name_idx := 0, num_params := 0, num_registers := 2,
           instructions := [mkAsbx .IterNext 0 7, mkAbc .Nop 0 1 0] }
      (mkAsbx .IterNext 0 7) (mkAbc .Nop 0 1 0) 0 [.str "a"] 1
      rfl rfl rfl rfl rfl rfl rfl (by decide)).2 rfl⟩

-- ===================================================================
-- C3 — IterInit snapshots; source mutation does not affect the walk
-- ===================================================================

/-- Claim C3: `IterInit` takes a snapshot of the source list (a copy of
its elements) into a fresh iterator cell with cursor 0 — conjunct (a) —
and a subsequent mutation of the source list touches only the list's own
cell, leaving every iterator cell, and hence the sequence of values
later `IterNext`s will yield (`iterRemaining`), unchanged: conjunct (b)
for the `ListPush` opcode and conjunct (c) for the built-in `list.push`
method dispatched through the 0xFFFE `Call` sentinel. -/
theorem iterinit_snapshot (s : VMState) (fr : Frame) (rest : List Frame) (func : Func)
    (w : Nat) (lcid : Nat) (items : List Value)
    (hstack : s.call_stack = fr :: rest)
    (hfunc : s.module.functions[fr.function_idx]? = some func)
    (hinst : func.instructions[fr.pc]? = some w)
    (hop : instrOpcodeByte w = 0xA8)
    (hsrc : fr.registers[instrB w]? = some (.list lcid))
    (hcell : alookup lcid s.heap.cells = some (.listC items))
    (hwf : s.heap.WF) :
    (execStep s = .ok (.next (stSetReg
      { s with call_stack := { fr with pc := fr.pc + 1 } :: rest,
               heap := ⟨s.heap.cells ++ [(s.heap.nextCell, .iterC items 0)],
                        s.heap.nextCell + 1⟩ }
      (instrA w) (.iterator s.heap.nextCell))) ∧
     iterRemaining ⟨s.heap.cells ++ [(s.heap.nextCell, .iterC items 0)], s.heap.nextCell + 1⟩
       s.heap.nextCell = items) ∧
    (∀ (t : VMState) (gr : Frame) (grest : List Frame) (gfunc : Func) (u : Nat)
        (lc : Nat) (xs : List Value) (v : Value) (ic : Nat) (its : List Value) (cur : Nat),
      t.call_stack = gr :: grest →
      t.module.functions[gr.function_idx]? = some gfunc →
      gfunc.instructions[gr.pc]? = some u →
      instrOpcodeByte u = 0x5D →
      gr.registers[instrA u]? = some (.list lc) →
      gr.registers[instrB u]? = some v →
      alookup lc t.heap.cells = some (.listC xs) →
      alookup ic t.heap.cells = some (.iterC its cur) →
      execStep t = .ok (.next { t with
        call_stack := { gr with pc := gr.pc + 1 } :: grest,
        heap := t.heap.setCell lc (.listC (xs ++ [v])) }) ∧
      iterRemaining (t.heap.setCell lc (.listC (xs ++ [v]))) ic = iterRemaining t.heap ic) ∧
    (∀ (t : VMState) (gr : Frame) (grest : List Frame) (gfunc : Func) (u u1 u2 : Nat)
        (lc : Nat) (xs : List Value) (v : Value) (ic : Nat) (its : List Value) (cur : Nat),
      t.call_stack = gr :: grest →
      t.module.functions[gr.function_idx]? = some gfunc →
      gfunc.instructions[gr.pc]? = some u →
      instrOpcodeByte u = 0x68 →
      instrBx u = 0xFFFE →
      gfunc.instructions[gr.pc + 1]? = some u1 →
      gfunc.instructions[gr.pc + 2]? = some u2 →
      loadConstantStr t.module (instrBx u2) = .ok "push" →
      gr.registers[instrB u1]? = some (.list lc) →
      ¬ instrC u1 < 2 →
      gr.registers[instrB u1 + 1]? = some v →
      alookup lc t.heap.cells = some (.listC xs) →
      alookup ic t.heap.cells = some (.iterC its cur) →
      execStep t = .ok (.next (stSetReg
        { t with call_stack := { gr with pc := gr.pc + 3 } :: grest,
                 heap := t.heap.setCell lc (.listC (xs ++ [v])) }
        (instrA u) .noneV)) ∧
      iterRemaining (t.heap.setCell lc (.listC (xs ++ [v]))) ic = iterRemaining t.heap ic) := by
  refine ⟨⟨?_, ?_⟩, ?_, ?_⟩
  · simp [execStep, hstack, hfunc, hinst, hop, armIterInit, readReg, hsrc, hcell, Heap.alloc]
  · have hfresh : alookup s.heap.nextCell s.heap.cells = none :=
      alookup_none_of_bound _ _ hwf
    simp [iterRemaining, alookup_append_of_none _ _ _ hfresh, alookup]
  · intro t gr grest gfunc u lc xs v ic its cur hstackT hfuncT hinstT hopT ha hb hlist hiter
    have hne : ic ≠ lc := by
      intro he
      rw [he, hlist] at hiter
      cases hiter
    constructor
    · simp [execStep, hstackT, hfuncT, hinstT, hopT, armListPush, readReg, ha, hb, hlist]
    · simp [iterRemaining, Heap.setCell, alookup_ainsert_ne _ _ _ _ hne, hiter]
  · intro t gr grest gfunc u u1 u2 lc xs v ic its cur hstackT hfuncT hinstT hopT hbx he1 he2
      hname hrecv hargs hval hlist hiter
    have hne : ic ≠ lc := by
      intro he
      rw [he, hlist] at hiter
      cases hiter
    constructor
    · simp [execStep, hstackT, hfuncT, hinstT, hopT, armCall, hbx, he1, he2, hname, readReg,
        hrecv, hargs, hval, hlist, stSetPc]
    · simp [iterRemaining, Heap.setCell, alookup_ainsert_ne _ _ _ _ hne, hiter]

/-- Witness for C3: an `IterInit` over a one-element list, then a
`ListPush` onto that list in the resulting state, then a built-in
`list.push` method call on the same list — the iterator cell's remaining
values are untouched by both mutations. -/
theorem iterinit_snapshot_witness :
    (execStep c3State = .ok (.next (stSetReg
      { c3State with
          call_stack := [{ registers := [.list 0, .noneV, .num (.fin 9)], function_idx := 0,
                           pc := 1, return_info := none, agent_id := none }],
          heap := ⟨c3State.heap.cells ++ [(c3State.heap.nextCell, .iterC [.num (.fin 1)] 0)],
                   c3State.heap.nextCell + 1⟩ }
      (instrA (mkAbc .IterInit 1 0 0)) (.iterator c3State.heap.nextCell))) ∧
     iterRemaining ⟨c3State.heap.cells ++ [(c3State.heap.nextCell, .iterC [.num (.fin 1)] 0)],
       c3State.heap.nextCell + 1⟩ c3State.heap.nextCell = [.num (.fin 1)]) ∧
    (execStep c3PushState = .ok (.next { c3PushState with
        call_stack := [{ registers := [.list 0, .iterator 1, .num (.fin 9)], function_idx := 0,
                         pc := 2, return_info := none, agent_id := none }],
        heap := c3PushState.heap.setCell 0 (.listC ([.num (.fin 1)] ++ [.num (.fin 9)])) }) ∧
     iterRemaining (c3PushState.heap.setCell 0 (.listC ([.num (.fin 1)] ++ [.num (.fin 9)]))) 1 =
       iterRemaining c3PushState.heap 1) ∧
    (execStep c3MPushState = .ok (.next (stSetReg
      { c3MPushState with
          call_stack := [{ registers := [.list 0, .iterator 1, .list 0, .num (.fin 9), .noneV],
                           function_idx := 0, pc := 3, return_info := none, agent_id := none }],
          heap := c3MPushState.heap.setCell 0 (.listC ([.num (.fin 1)] ++ [.num (.fin 9)])) }
      (instrA (mkAbx .Call 4 0xFFFE)) .noneV)) ∧
     iterRemaining (c3MPushState.heap.setCell 0 (.listC ([.num (.fin 1)] ++ [.num (.fin 9)]))) 1 =
       iterRemaining c3MPushState.heap 1) :=
  ⟨(iterinit_snapshot c3State
      { registers := [.list 0, .noneV, .num (.fin 9)], function_idx := 0, pc := 0,
        return_info := none, agent_id := none }
      [] { name_idx := 0, num_params := 0, num_registers := 3,
           instructions := [mkAbc .IterInit 1 0 0, mkAbc .ListPush 0 2 0] }
      (mkAbc .IterInit 1 0 0) 0 [.num (.fin 1)]
      rfl rfl rfl rfl rfl rfl (by unfold Heap.WF; decide)).1,
   (iterinit_snapshot c3State
      { registers := [.list 0, .noneV, .num (.fin 9)], function_idx := 0, pc := 0,
        return_info := none, agent_id := none }
      [] { name_idx := 0, num_params := 0, num_registers := 3,
           instructions := [mkAbc .IterInit 1 0 0, mkAbc .ListPush 0 2 0] }
      (mkAbc .IterInit 1 0 0) 0 [.num (.fin 1)]
      rfl rfl rfl rfl rfl rfl (by unfold Heap.WF; decide)).2.1
     c3PushState
     { registers := [.list 0, .iterator 1, .num (.fin 9)], function_idx := 0, pc := 1,
       return_info := none, agent_id := none }
     [] { name_idx := 0, num_params := 0, num_registers := 3,
          instructions := [mkAbc .IterInit 1 0 0, mkAbc .ListPush 0 2 0] }
     (mkAbc .ListPush 0 2 0) 0 [.num (.fin 1)] (.num (.fin 9)) 1 [.num (.fin 1)] 0
     rfl rfl rfl rfl rfl rfl rfl rfl,
   (iterinit_snapshot c3State
      { registers := [.list 0, .noneV, .num (.fin 9)], function_idx := 0, pc := 0,
        return_info := none, agent_id := none }
      [] { name_idx := 0, num_params := 0, num_registers := 3,
           instructions := [mkAbc .IterInit 1 0 0, mkAbc .ListPush 0 2 0] }
      (mkAbc .IterInit 1 0 0) 0 [.num (.fin 1)]
      rfl rfl rfl rfl rfl rfl (by unfold Heap.WF; decide)).2.2
     c3MPushState
     { registers := [.list 0, .iterator 1, .list 0, .num (.fin 9), .noneV], function_idx := 0,
       pc := 0, return_info := none, agent_id := none }
     [] { name_idx := 0, num_params := 0, num_registers := 5,
          instructions := [mkAbx .Call 4 0xFFFE, mkAbc .Nop 0 2 2, mkAbx .Nop 0 0] }
     (mkAbx .Call 4 0xFFFE) (mkAbc .Nop 0 2 2) (mkAbx .Nop 0 0)
     0 [.num (.fin 1)] (.num (.fin 9)) 1 [.num (.fin 1)] 0
     rfl rfl rfl rfl rfl rfl rfl rfl rfl (by decide) rfl rfl rfl⟩

-- ===================================================================
-- C4 — Spawn: fresh handles, monotone counter, default-initialized memory
-- ===================================================================

/-- Claim C4: under the id invariant (every live agent id is below
`next_agent_id` — established at `VM::new`, which starts the counter at 1
with no agents, and preserved by every spawn), `Spawn` returns a handle
whose id was never issued before, bumps the counter (monotonically
increasing, ids never reused), and the new instance's memory is exactly
the descriptor's declared fields in order, each bound to its declared
default constant (`None` when a field has no default) — the `binds` list
of `resolveFields`. -/
theorem spawn_unique_defaults (s : VMState) (fr : Frame) (rest : List Frame) (func : Func)
    (w : Nat) (desc : AgentDescriptor) (binds : List (String × Value))
    (hstack : s.call_stack = fr :: rest)
    (hfunc : s.module.functions[fr.function_idx]? = some func)
    (hinst : func.instructions[fr.pc]? = some w)
    (hop : instrOpcodeByte w = 0x78)
    (hdesc : s.module.agents[instrBx w]? = some desc)
    (hres : resolveFields s.module desc.memory_fields = .ok binds)
    (hnodup : (binds.map Prod.fst).Nodup)
    (hwf : ∀ p ∈ s.agents, p.1 < s.next_agent_id) :
    alookup s.next_agent_id s.agents = none ∧
    execStep s = .ok (.next (stSetReg
      { s with call_stack := { fr with pc := fr.pc + 1 } :: rest,
               agents := ainsert s.next_agent_id ⟨instrBx w, binds, []⟩ s.agents,
               next_agent_id := s.next_agent_id + 1 }
      (instrA w) (.agentHandle s.next_agent_id))) ∧
    (∀ p ∈ ainsert s.next_agent_id (⟨instrBx w, binds, []⟩ : AgentInstance) s.agents,
      p.1 < s.next_agent_id + 1) ∧
    (∀ M : Module, (VMState.new M).next_agent_id = 1 ∧ (VMState.new M).agents = []) := by
  have hmem : spawnMemory s.module desc.memory_fields [] = .ok binds := by
    simpa using
      spawnMemory_of_resolveFields s.module desc.memory_fields [] binds hres
        (by simpa using hnodup)
  refine ⟨alookup_none_of_bound _ _ hwf, ?_, ?_, fun M => ⟨rfl, rfl⟩⟩
  · simp [execStep, hstack, hfunc, hinst, hop, armSpawn, hdesc, hmem]
  · intro p hp
    rcases mem_ainsert _ _ _ _ hp with he | hm
    · simp [he]
    · exact Nat.lt_succ_of_lt (hwf p hm)

/-- Witness for C4: spawning a descriptor with one field
`count: num = 0` from a fresh VM — handle 1, counter bumped to 2, memory
`[("count", 0)]`. -/
theorem spawn_unique_defaults_witness :
    alookup c4State.next_agent_id c4State.agents = none ∧
    execStep c4State = .ok (.next (stSetReg
      { c4State with
          call_stack := [{ registers := [.noneV], function_idx := 0, pc := 1,
                           return_info := none, agent_id := none }],
          agents := ainsert c4State.next_agent_id
            ⟨instrBx (mkAbx .Spawn 0 0), [("count", .num (.fin 0))], []⟩ c4State.agents,
          next_agent_id := c4State.next_agent_id + 1 }
      (instrA (mkAbx .Spawn 0 0)) (.agentHandle c4State.next_agent_id))) ∧
    (∀ p ∈ ainsert c4State.next_agent_id
        (⟨instrBx (mkAbx .Spawn 0 0), [("count", .num (.fin 0))], []⟩ : AgentInstance)
        c4State.agents,
      p.1 < c4State.next_agent_id + 1) ∧
    (∀ M : Module, (VMState.new M).next_agent_id = 1 ∧ (VMState.new M).agents = []) :=
  spawn_unique_defaults c4State
    { registers := [.noneV], function_idx := 0, pc := 0, return_info := none, agent_id := none }
    [] { name_idx := 0, num_params := 0, num_registers := 1, instructions := [mkAbx .Spawn 0 0] }
    (mkAbx .Spawn 0 0)
    { name_idx := 0, model_idx := none, system_prompt_idx := none,
      memory_fields := [{ name_idx := 0, default_idx := some 1 }], methods := [] }
    [("count", .num (.fin 0))]
    rfl rfl rfl rfl rfl rfl (by decide) (by intro p hp; simp [c4State] at hp)

-- ===================================================================
-- C1 — per-agent mailboxes are strictly FIFO
-- ===================================================================

/-- Claim C1: per-agent mailboxes are strictly FIFO: for an agent handle
h (in the handle register) with an empty mailbox and any values v1..vk,
executing k Send opcodes delivering v1..vk to h followed by k+1 Recv
opcodes on h yields v1..vk in that order and then None — Recv on the
emptied mailbox returns None immediately (no blocking, no error). -/
theorem mailbox_fifo (s : VMState) (fr : Frame) (rest : List Frame) (h ha mb : Nat)
    (inst : AgentInstance) (vs : List Value)
    (hstack : s.call_stack = fr :: rest)
    (hha : fr.registers[ha]? = some (.agentHandle h))
    (hmb : mb < fr.registers.length)
    (hne : ha ≠ mb)
    (hagent : alookup h s.agents = some inst)
    (hempty : inst.mailbox = []) :
    ∃ (s₁ s₂ : VMState) (inst₁ : AgentInstance),
      runSends ha mb s vs = .ok s₁ ∧
      alookup h s₁.agents = some inst₁ ∧ inst₁.mailbox = vs ∧
      runRecvs mb ha (vs.length + 1) s₁ = .ok (vs ++ [Value.noneV], s₂) := by
  obtain ⟨fr2, heq, hha2, hlen2⟩ := runSends_ok h ha mb hne vs s fr rest inst hstack hha hmb hagent
  have hmail : ({ inst with mailbox := inst.mailbox ++ vs } : AgentInstance).mailbox = vs := by
    simp [hempty]
  obtain ⟨s2, hrec⟩ := runRecvs_ok h mb ha hne vs
    { s with
      call_stack := fr2 :: rest,
      agents := ainsert h { inst with mailbox := inst.mailbox ++ vs } s.agents }
    fr2 rest { inst with mailbox := inst.mailbox ++ vs }
    rfl hha2 (by rw [hlen2]; exact hmb) (by simp) hmail
  exact ⟨_, s2, { inst with mailbox := inst.mailbox ++ vs }, heq, by simp, hmail, hrec⟩

/-- Witness for C1: two sends (a Num and a Str) into a fresh agent's
mailbox, then three receives yielding both values and None. -/
theorem mailbox_fifo_witness :
    ∃ (s₁ s₂ : VMState) (inst₁ : AgentInstance),
      runSends 0 1 c1State [.num (.fin 5), .str "x"] = .ok s₁ ∧
      alookup 1 s₁.agents = some inst₁ ∧ inst₁.mailbox = [.num (.fin 5), .str "x"] ∧
      runRecvs 1 0 ([Value.num (.fin 5), Value.str "x"].length + 1) s₁ =
        .ok ([.num (.fin 5), .str "x"] ++ [Value.noneV], s₂) :=
  mailbox_fifo c1State
    { registers := [.agentHandle 1, .noneV], function_idx := 0, pc := 0,
      return_info := none, agent_id := none } [] 1 0 1
    { descriptor_idx := 0, memory := [], mailbox := [] } [.num (.fin 5), .str "x"]
    rfl rfl (by decide) (by decide) rfl rfl

-- ===================================================================
-- C10 — single-segment template literals compile without Concat
-- ===================================================================

/-- Claim C10: a template literal with exactly one segment compiles to
exactly the code of that segment alone — a literal segment as a string
literal, an interpolated expression as the expression itself — so no
Concat is emitted by the template and a single interpolated expression
keeps its value unconverted (a Num stays a Num).  With two (literal)
segments, compilation emits exactly one Concat: stringification happens
only when segments are chained. -/
theorem template_single_segment :
    (∀ (seg : TemplateSegment) (st : EmitState),
      compileExpr (.templateLit [seg]) st = compileExpr (segAsExpr seg) st) ∧
    (∀ (s1 s2 : String) (st : EmitState), st.next_register + 2 < 255 →
      (compileExpr (.templateLit [.lit s1, .lit s2]) st).map
          (fun p => countConcat p.2.instructions) =
        .ok (countConcat st.instructions + 1)) := by
  constructor
  · intro seg st
    cases seg with
    | lit s =>
      simp [compileExpr, compileSegs, segAsExpr]
    | expr e =>
      cases h : compileExpr e st with
      | error err => simp [compileExpr, compileSegs, segAsExpr, h]
      | ok p => simp [compileExpr, compileSegs, segAsExpr, h]
  · intro s1 s2 st hreg
    have c1 : st.next_register < 255 := by omega
    have c2 : st.next_register + 1 < 255 := by omega
    have c3 : st.next_register + 2 < 255 := hreg
    simp [compileExpr, compileSegs, allocRegister, c1, c2, c3, emitInstr, addStrConst,
      countConcat_append, countConcat, instrOpcodeByte_mkAbx, instrOpcodeByte_mkAbc,
      OpCode.toByte]

/-- Witness for C10: a one-segment template holding the number 7
compiles exactly like the bare number literal (no Concat, value
unconverted), and a two-segment literal template from a fresh emitter
emits exactly one Concat. -/
theorem template_single_segment_witness :
    compileExpr (.templateLit [.expr (.numberLit (.fin 7))]) ⟨[], [], [], 0⟩ =
      compileExpr (segAsExpr (.expr (.numberLit (.fin 7)))) ⟨[], [], [], 0⟩ ∧
    (compileExpr (.templateLit [.lit "a", .lit "b"]) ⟨[], [], [], 0⟩).map
        (fun p => countConcat p.2.instructions) =
      .ok (countConcat ([] : List Nat) + 1) :=
  ⟨template_single_segment.1 (.expr (.numberLit (.fin 7))) ⟨[], [], [], 0⟩,
   template_single_segment.2 "a" "b" ⟨[], [], [], 0⟩ (by decide)⟩

end Agentus
